import Mathlib

/-!
# A verification model of `src/dbusbind.c` (Elisp bindings for D-Bus)

The file embeds the C source function by function.

* Lisp objects are a small inductive type; symbols are pointers (`symbol id`)
  into a heap of symbol cells that lives in the state.
* A D-Bus message argument is a typed tree (`WireValue`); a message iterator
  is the list of arguments that are still ahead of the cursor.
* Code that can leave through `xsignal` or through undefined behaviour of C
  (an overrun of one of the `char s[1024]` buffers, `strcpy` from `NULL`) is
  written in the state monad `XD`, whose results are `Exit.ok`,
  `Exit.signal` or `Exit.undefined`; the state reached so far is kept.
* Calls into libdbus whose outcome depends on the bus daemon, on peers or on
  memory are answered by the fields of `DBusEnv`.
* `XD_DEBUG_MESSAGE` expands to a statement guarded by
  `!NILP (Vdbus_debug)`; the model fixes `dbus-debug` to its default `nil`
  (and `DBUS_DEBUG` undefined), so the debug statements are no-ops and
  `XD_DEBUG_VALID_LISP_OBJECT_P` expands to nothing.
* A string is the sequence of its bytes, one `Char` standing for one byte, so
  that `String.length` is `strlen`; a C string ends in front of the first NUL.
* Garbage collection protection (`GCPRO`, `UNGCPRO`) and the reference counts
  of messages have no counterpart.  `Fdbus_get_unique_name` is not embedded; no
  property below refers to it.
-/

namespace Dbusbind

/-! ## Lisp objects -/

/-- Modelled from the spec: `Lisp_Object` (lisp.h, not under src/), the dynamic value
of the host.  Symbols and vector-like objects are pointers; fixnums, floats
(their IEEE-754 bit pattern), strings (their bytes) and conses carry their
contents. -/
inductive Lisp_Object where
  | symbol (id : Nat)
  | int (n : Int)
  | float (bits : Nat)
  | string (data : String)
  | cons (car cdr : Lisp_Object)
  | vectorlike (id : Nat)
  deriving DecidableEq, Repr, Inhabited

open Lisp_Object

/-- Modelled from the spec: the symbols `nil`, `t` (lisp.h, not under src/) and
the symbols interned by `syms_of_dbusbind`, as fixed pointers. -/
def Qnil : Lisp_Object := symbol 0

/-- Modelled from the spec: the symbol `t` (lisp.h). -/
def Qt : Lisp_Object := symbol 1

/-- The symbol `:system`, interned by `syms_of_dbusbind`. -/
def Qdbus_system_bus : Lisp_Object := symbol 2

/-- The symbol `:session`, interned by `syms_of_dbusbind`. -/
def Qdbus_session_bus : Lisp_Object := symbol 3

/-- The symbol `dbus-error`, interned by `syms_of_dbusbind`. -/
def Qdbus_error : Lisp_Object := symbol 4

/-- Modelled from the spec: the symbol `wrong-type-argument` (data.c). -/
def Qwrong_type_argument : Lisp_Object := symbol 5

/-- Modelled from the spec: the symbol `symbolp` (data.c). -/
def Qsymbolp : Lisp_Object := symbol 6

/-- Modelled from the spec: the symbol `stringp` (data.c). -/
def Qstringp : Lisp_Object := symbol 7

/-- Modelled from the spec: the symbol `void-function` (data.c). -/
def Qvoid_function : Lisp_Object := symbol 8

/-- Modelled from the spec: the symbol `setting-constant` (data.c). -/
def Qsetting_constant : Lisp_Object := symbol 9

/-- Modelled from the spec: `EQ` (lisp.h), identity of Lisp objects.  The source
only applies it to symbols, where identity is equality of pointers. -/
def EQ (x y : Lisp_Object) : Bool := x == y

/-- Modelled from the spec: `NILP` (lisp.h). -/
def NILP (x : Lisp_Object) : Bool := EQ x Qnil

/-- Modelled from the spec: `SYMBOLP` (lisp.h). -/
def SYMBOLP : Lisp_Object → Bool
  | symbol _ => true
  | _ => false

/-- Modelled from the spec: `INTEGERP` (lisp.h). -/
def INTEGERP : Lisp_Object → Bool
  | int _ => true
  | _ => false

/-- Modelled from the spec: `XINT` (lisp.h), the value of a fixnum. -/
def XINT : Lisp_Object → Int
  | int n => n
  | _ => 0

/-- Modelled from the spec: `NATNUMP` (lisp.h): `INTEGERP (x) && XINT (x) >= 0`. -/
def NATNUMP (x : Lisp_Object) : Bool := INTEGERP x && decide (0 ≤ XINT x)

/-- Modelled from the spec: `FLOATP` (lisp.h). -/
def FLOATP : Lisp_Object → Bool
  | float _ => true
  | _ => false

/-- Modelled from the spec: `STRINGP` (lisp.h). -/
def STRINGP : Lisp_Object → Bool
  | string _ => true
  | _ => false

/-- What the build fixes and the source does not: the number of value bits of
a fixnum (`VALBITS` of lisp.h, 61 on a 64-bit build, 29 on a 32-bit build)
and the address `XFLOAT (object)` of the `struct Lisp_Float` of a float. -/
structure Platform where
  VALBITS : Nat
  XFLOAT : Lisp_Object → Nat

/-- The value of the low `w` bits of `n` read as a signed number. -/
def wrap_signed (w : Nat) (n : Int) : Int :=
  (n + 2 ^ (w - 1)) % 2 ^ w - 2 ^ (w - 1)

/-- Modelled from the spec: `make_number` (lisp.h): the fixnum holding the low
`VALBITS` bits of `n`. -/
def make_number (P : Platform) (n : Int) : Lisp_Object :=
  int (wrap_signed P.VALBITS n)

/-- Modelled from the spec: `XUINT` (lisp.h): the value bits of a fixnum read
as an unsigned number. -/
def XUINT (P : Platform) (x : Lisp_Object) : Int := XINT x % 2 ^ P.VALBITS

/-- A C string: the bytes in front of the first NUL. -/
def c_string (s : String) : String := ⟨s.data.takeWhile (fun c => c != Char.ofNat 0)⟩

/-- Modelled from the spec: `SDATA` (lisp.h), the bytes of a Lisp string.  The
source applies it to strings only. -/
def SDATA : Lisp_Object → String
  | string s => s
  | _ => ""

/-- Modelled from the spec: `build_string` (alloc.c): a Lisp string with the
bytes of a C string. -/
def build_string (s : String) : Lisp_Object := string (c_string s)

/-- Modelled from the spec: `Fcons` (alloc.c). -/
def Fcons (car cdr : Lisp_Object) : Lisp_Object := cons car cdr

/-- Modelled from the spec: `XCAR` (lisp.h). -/
def XCAR : Lisp_Object → Lisp_Object
  | cons a _ => a
  | _ => Qnil

/-- Modelled from the spec: the loop of `Fnreverse` (fns.c): move the cells of `tail`
in front of `prev`. -/
def Fnreverse_loop : Lisp_Object → Lisp_Object → Lisp_Object
  | cons a d, prev => Fnreverse_loop d (cons a prev)
  | _, prev => prev

/-- Modelled from the spec: `Fnreverse` (fns.c) on a proper list: the list with
its elements in reverse order. -/
def Fnreverse (list : Lisp_Object) : Lisp_Object := Fnreverse_loop list Qnil

/-- Modelled from the spec: `Flength` (fns.c) followed by `XUINT`: the number of
cells of a list. -/
def Flength : Lisp_Object → Nat
  | cons _ d => Flength d + 1
  | _ => 0

/-- The proper Lisp list of the given elements (`list1`, `list2`, ...). -/
def lisp_list : List Lisp_Object → Lisp_Object
  | [] => Qnil
  | x :: xs => cons x (lisp_list xs)

/-! ## D-Bus types and message arguments (libdbus) -/

def DBUS_TYPE_INVALID : Nat := 0
def DBUS_TYPE_BYTE : Nat := 121
def DBUS_TYPE_BOOLEAN : Nat := 98
def DBUS_TYPE_INT16 : Nat := 110
def DBUS_TYPE_UINT16 : Nat := 113
def DBUS_TYPE_INT32 : Nat := 105
def DBUS_TYPE_UINT32 : Nat := 117
def DBUS_TYPE_INT64 : Nat := 120
def DBUS_TYPE_UINT64 : Nat := 116
def DBUS_TYPE_DOUBLE : Nat := 100
def DBUS_TYPE_STRING : Nat := 115
def DBUS_TYPE_OBJECT_PATH : Nat := 111
def DBUS_TYPE_SIGNATURE : Nat := 103
def DBUS_TYPE_ARRAY : Nat := 97
def DBUS_TYPE_VARIANT : Nat := 118
def DBUS_TYPE_STRUCT : Nat := 114
def DBUS_TYPE_DICT_ENTRY : Nat := 101
def DBUS_TYPE_UNIX_FD : Nat := 104

/-- One argument of a D-Bus message: a basic value of one of the types of the D-Bus
type alphabet, or a container with its elements in wire order. -/
inductive WireValue where
  | byte (val : Nat)
  | boolean (val : Nat)
  | int16 (val : Int)
  | uint16 (val : Nat)
  | int32 (val : Int)
  | uint32 (val : Nat)
  | int64 (val : Int)
  | uint64 (val : Nat)
  | double (bits : Nat)
  | string (val : String)
  | object_path (val : String)
  | signature (val : String)
  | unix_fd (val : Nat)
  | array (elems : List WireValue)
  | variant (elems : List WireValue)
  | struct (elems : List WireValue)
  | dict_entry (elems : List WireValue)
  deriving Repr, Inhabited

/-- The type code of an argument. -/
def WireValue.arg_type : WireValue → Nat
  | .byte _ => DBUS_TYPE_BYTE
  | .boolean _ => DBUS_TYPE_BOOLEAN
  | .int16 _ => DBUS_TYPE_INT16
  | .uint16 _ => DBUS_TYPE_UINT16
  | .int32 _ => DBUS_TYPE_INT32
  | .uint32 _ => DBUS_TYPE_UINT32
  | .int64 _ => DBUS_TYPE_INT64
  | .uint64 _ => DBUS_TYPE_UINT64
  | .double _ => DBUS_TYPE_DOUBLE
  | .string _ => DBUS_TYPE_STRING
  | .object_path _ => DBUS_TYPE_OBJECT_PATH
  | .signature _ => DBUS_TYPE_SIGNATURE
  | .unix_fd _ => DBUS_TYPE_UNIX_FD
  | .array _ => DBUS_TYPE_ARRAY
  | .variant _ => DBUS_TYPE_VARIANT
  | .struct _ => DBUS_TYPE_STRUCT
  | .dict_entry _ => DBUS_TYPE_DICT_ENTRY

/-- The libdbus call `dbus_message_iter_get_arg_type`: the type of the argument
under the cursor, `DBUS_TYPE_INVALID` at the end. -/
def dbus_message_iter_get_arg_type : List WireValue → Nat
  | [] => DBUS_TYPE_INVALID
  | v :: _ => v.arg_type

/-! ## The value codec -/

/-- The macro `XD_LISP_OBJECT_TO_DBUS_TYPE`. -/
def XD_LISP_OBJECT_TO_DBUS_TYPE (object : Lisp_Object) : Nat :=
  if EQ object Qt || EQ object Qnil then DBUS_TYPE_BOOLEAN
  else if NATNUMP object then DBUS_TYPE_UINT32
  else if INTEGERP object then DBUS_TYPE_INT32
  else if FLOATP object then DBUS_TYPE_DOUBLE
  else if STRINGP object then DBUS_TYPE_STRING
  else DBUS_TYPE_INVALID

/-- A value of type `char *` as `xd_retrieve_value` returns it: an integer cast
to a pointer (`NULL` is `word 0`), or a pointer to the bytes of a string. -/
inductive CharPtr where
  | word (n : Int)
  | sdata (s : String)
  deriving DecidableEq, Repr

/-- The function `xd_retrieve_value`. -/
def xd_retrieve_value (P : Platform) (dtype : Nat) (object : Lisp_Object) : CharPtr :=
  if dtype = DBUS_TYPE_BOOLEAN then
    (if NILP object then .word 0 else .word 1)
  else if dtype = DBUS_TYPE_UINT32 then .word (XUINT P object)
  else if dtype = DBUS_TYPE_INT32 then .word (XINT object)
  else if dtype = DBUS_TYPE_DOUBLE then .word (P.XFLOAT object)
  else if dtype = DBUS_TYPE_STRING then .sdata (SDATA object)
  else .word 0

/-- What the libdbus call `dbus_message_append_args (dmessage, dtype, &value, ...)`
reads at `&value` on a little-endian machine: the low 32 bits of the word for
`BOOLEAN`, `UINT32` and `INT32`, the word itself as the bits of a double for
`DOUBLE`, and the C string the word points to for `STRING`. -/
def dbus_read_basic (dtype : Nat) (value : CharPtr) : Option WireValue :=
  match value with
  | .word n =>
    if dtype = DBUS_TYPE_BOOLEAN then some (.boolean (n % 2 ^ 32).toNat)
    else if dtype = DBUS_TYPE_UINT32 then some (.uint32 (n % 2 ^ 32).toNat)
    else if dtype = DBUS_TYPE_INT32 then some (.int32 (wrap_signed 32 n))
    else if dtype = DBUS_TYPE_DOUBLE then some (.double (n % 2 ^ 64).toNat)
    else none
  | .sdata s =>
    if dtype = DBUS_TYPE_STRING then some (.string (c_string s)) else none

/-- The argument that the loops of `Fdbus_call_method` and `Fdbus_send_signal`
put on the wire for `object`: the type of `XD_LISP_OBJECT_TO_DBUS_TYPE` with
the payload of `xd_retrieve_value`; `none` when the type is
`DBUS_TYPE_INVALID`. -/
def encode (P : Platform) (object : Lisp_Object) : Option WireValue :=
  let dtype := XD_LISP_OBJECT_TO_DBUS_TYPE object
  if dtype = DBUS_TYPE_INVALID then none
  else dbus_read_basic dtype (xd_retrieve_value P dtype object)

mutual
/-- The function `xd_retrieve_arg`.  Its callers pass
`dtype = dbus_message_iter_get_arg_type (iter)`, so the `switch (dtype)` is a
match on the argument under the cursor.  `dbus_message_iter_get_basic` copies
the 32 bits of an `INT32` or `UINT32` into a `dbus_uint32_t`. -/
def xd_retrieve_arg (P : Platform) : WireValue → Lisp_Object
  | .boolean val => if val = 0 then Qnil else Qt
  | .int32 val => make_number P (val % 2 ^ 32)
  | .uint32 val => make_number P (val % 2 ^ 32)
  | .string val => build_string val
  | .object_path val => build_string val
  | .array elems => Fnreverse (xd_retrieve_arg_loop P elems Qnil)
  | .variant elems => Fnreverse (xd_retrieve_arg_loop P elems Qnil)
  | .struct elems => Fnreverse (xd_retrieve_arg_loop P elems Qnil)
  | .dict_entry elems => Fnreverse (xd_retrieve_arg_loop P elems Qnil)
  | _ => Qnil
/-- The loop `while ((subtype = dbus_message_iter_get_arg_type (&subiter)) !=
DBUS_TYPE_INVALID)` of `xd_retrieve_arg`, which is also the loop of
`Fdbus_call_method` and of `xd_read_message`: cons the decoded argument onto
`result` and step the cursor. -/
def xd_retrieve_arg_loop (P : Platform) : List WireValue → Lisp_Object → Lisp_Object
  | [], result => result
  | v :: rest, result =>
    if v.arg_type ≠ DBUS_TYPE_INVALID then
      xd_retrieve_arg_loop P rest (Fcons (xd_retrieve_arg P v) result)
    else result
end

/-! ## The state: symbol heap, obarray, event queue and the two connections -/

/-- Modelled from the spec: a symbol cell (`struct Lisp_Symbol` of lisp.h): its
name and its function cell, `none` standing for `Qunbound`. -/
structure Lisp_Symbol where
  name : String
  function : Option Lisp_Object
  deriving DecidableEq, Repr

/-- A D-Bus message (libdbus): the header fields the source reads, each absent
when the libdbus getter returns `NULL`, and the arguments in wire order. -/
structure DBusMessage where
  path : Option String
  interface : Option String
  member : Option String
  sender : Option String
  destination : Option String
  args : List WireValue
  deriving Repr

/-- The part of a libdbus connection that the source can change or observe:
the messages it handed to the transport (oldest first), the incoming messages
not yet popped, and the match rules installed with `dbus_bus_add_match`.  The
protocol messages that libdbus sends on its own account (`Hello` when the bus is
first reached, `AddMatch` for a rule) are not recorded in `written`. -/
structure DBusConnection where
  written : List DBusMessage
  incoming : List DBusMessage
  match_rules : List String
  deriving Repr

/-- The libdbus enumeration `DBusBusType`; the model uses it as the connection handle. -/
inductive DBusBusType where
  | DBUS_BUS_SESSION
  | DBUS_BUS_SYSTEM
  deriving DecidableEq, Repr

open DBusBusType

/-- Modelled from the spec: the fields of `struct input_event` (termhooks.h) that
`xd_read_message` sets; `kind` is always `DBUS_EVENT`. -/
structure input_event where
  frame_or_window : Lisp_Object
  arg : Lisp_Object
  deriving DecidableEq, Repr

/-- The mutable state.  `Vdbus_intern_symbols` is the obarray of the source, as a
finite map from names to symbol pointers; `kbd_buffer` is the input event queue
of the host (keyboard.c), oldest event first. -/
structure State where
  symbols : List Lisp_Symbol
  Vdbus_intern_symbols : List (String × Nat)
  kbd_buffer : List input_event
  system_bus : DBusConnection
  session_bus : DBusConnection
  deriving Repr

/-- The connection of a bus. -/
def State.connection (st : State) : DBusBusType → DBusConnection
  | DBUS_BUS_SYSTEM => st.system_bus
  | DBUS_BUS_SESSION => st.session_bus

/-- Replace the connection of a bus. -/
def State.set_connection (st : State) (type : DBusBusType) (c : DBusConnection) : State :=
  match type with
  | DBUS_BUS_SYSTEM => { st with system_bus := c }
  | DBUS_BUS_SESSION => { st with session_bus := c }

/-- The outcome of `dbus_bus_get`: `derror` set, or a `NULL` connection, or a connection. -/
inductive BusGet where
  | error (message : String)
  | null
  | connection
  deriving DecidableEq, Repr

/-- The outcome of `dbus_connection_send_with_reply_and_block`: `derror` set, or a
`NULL` reply, or a reply message. -/
inductive Reply where
  | error (message : String)
  | null
  | message (reply : DBusMessage)
  deriving Repr

/-- The answers of libdbus, of the bus daemon and of the peers, which the source
does not determine. -/
structure DBusEnv where
  dbus_bus_get : DBusBusType → BusGet
  dbus_message_new_method_call : String → String → String → String → Bool
  dbus_message_new_signal : String → String → String → Bool
  dbus_message_append_args : DBusMessage → WireValue → Bool
  dbus_connection_send_with_reply_and_block : DBusBusType → DBusMessage → Reply
  dbus_connection_send : DBusBusType → DBusMessage → Bool
  dbus_bus_add_match : DBusBusType → String → Option String

/-- How a piece of C code ends: normally with a value, through `xsignal`
(`Fsignal (error_symbol, data)`), or in undefined behaviour. -/
inductive Exit (α : Type) where
  | ok (val : α)
  | signal (error_symbol data : Lisp_Object)
  | undefined
  deriving Repr

/-- Code with effects on the state; the state reached is kept on every exit. -/
def XD (α : Type) : Type := State → Exit α × State

/-- Normal completion. -/
def XD.pure {α : Type} (a : α) : XD α := fun st => (.ok a, st)

/-- Sequencing: the rest runs only after a normal exit. -/
def XD.bind {α β : Type} (m : XD α) (f : α → XD β) : XD β := fun st =>
  match m st with
  | (.ok a, st1) => f a st1
  | (.signal e d, st1) => (.signal e d, st1)
  | (.undefined, st1) => (.undefined, st1)

instance : Monad XD where
  pure := XD.pure
  bind := XD.bind

/-- Modelled from the spec: `xsignal1` (eval.c): `Fsignal (error_symbol, list1 (arg))`. -/
def xsignal1 {α : Type} (error_symbol arg : Lisp_Object) : XD α :=
  fun st => (.signal error_symbol (lisp_list [arg]), st)

/-- Modelled from the spec: `xsignal2` (eval.c): `Fsignal (error_symbol, list2 (arg1, arg2))`. -/
def xsignal2 {α : Type} (error_symbol arg1 arg2 : Lisp_Object) : XD α :=
  fun st => (.signal error_symbol (lisp_list [arg1, arg2]), st)

/-- Undefined behaviour of C. -/
def undefined_behaviour {α : Type} : XD α := fun st => (.undefined, st)

/-- Modelled from the spec: `CHECK_SYMBOL` (lisp.h). -/
def CHECK_SYMBOL (x : Lisp_Object) : XD Unit :=
  if SYMBOLP x then pure () else xsignal2 Qwrong_type_argument Qsymbolp x

/-- Modelled from the spec: `CHECK_STRING` (lisp.h). -/
def CHECK_STRING (x : Lisp_Object) : XD Unit :=
  if STRINGP x then pure () else xsignal2 Qwrong_type_argument Qstringp x

/-- Modelled from the spec: `SYMBOL_NAME` followed by `SDATA` (lisp.h): the name
stored in the cell a symbol points to. -/
def SYMBOL_NAME (st : State) : Lisp_Object → Option String
  | symbol id => (st.symbols[id]?).map Lisp_Symbol.name
  | _ => none

/-- Modelled from the spec: the function cell of a symbol (`XSYMBOL (s)->function`),
`none` when it is `Qunbound` or the pointer is not a symbol. -/
def symbol_function_cell (st : State) : Lisp_Object → Option Lisp_Object
  | symbol id => (st.symbols[id]?).bind Lisp_Symbol.function
  | _ => none

/-- Modelled from the spec: `oblookup` (lread.c): the symbol an obarray holds under a name. -/
def oblookup (obarray : List (String × Nat)) (name : String) : Option Nat :=
  obarray.lookup name

/-- Modelled from the spec: `Fintern (string, Vdbus_intern_symbols)` (lread.c): the
symbol the obarray holds under the name, or else a new symbol with an unbound
function cell, which is entered into the obarray. -/
def Fintern (str : Lisp_Object) : XD Lisp_Object := fun st =>
  match oblookup st.Vdbus_intern_symbols (SDATA str) with
  | some id => (.ok (symbol id), st)
  | none =>
    (.ok (symbol st.symbols.length),
     { st with
       symbols := st.symbols ++ [{ name := SDATA str, function := none }]
       Vdbus_intern_symbols := (SDATA str, st.symbols.length) :: st.Vdbus_intern_symbols })

/-- Modelled from the spec: `Funintern (name, Vdbus_intern_symbols)` (lread.c) for a
symbol `name`: when the obarray holds this very symbol under its name, the
entry is deleted and the value is `t`; otherwise nothing changes and the value
is `nil`. -/
def Funintern (name : Lisp_Object) : XD Lisp_Object := fun st =>
  match SYMBOL_NAME st name with
  | none => (.undefined, st)
  | some str =>
    match oblookup st.Vdbus_intern_symbols str with
    | none => (.ok Qnil, st)
    | some tem =>
      if EQ name (symbol tem) then
        (.ok Qt, { st with
          Vdbus_intern_symbols := st.Vdbus_intern_symbols.filter (fun e => e.1 != str) })
      else (.ok Qnil, st)

/-- Modelled from the spec: `Fsymbol_function` (data.c): the function cell of a
symbol; `void-function` is signalled when the cell is unbound. -/
def Fsymbol_function (sym : Lisp_Object) : XD Lisp_Object := do
  CHECK_SYMBOL sym
  fun st =>
    match symbol_function_cell st sym with
    | some f => (.ok f, st)
    | none => xsignal1 Qvoid_function sym st

/-- Modelled from the spec: `Ffset` (data.c): store `definition` in the function cell
of a symbol other than `nil` and `t`. -/
def Ffset (sym definition : Lisp_Object) : XD Lisp_Object := do
  CHECK_SYMBOL sym
  if NILP sym || EQ sym Qt then xsignal1 Qsetting_constant sym
  else fun st =>
    match sym with
    | symbol id =>
      (.ok definition,
       { st with
         symbols := List.modify (fun c => { c with function := some definition }) id st.symbols })
    | _ => (.ok definition, st)

/-- Modelled from the spec: `kbd_buffer_store_event` (keyboard.c): put the event at
the end of the input event queue of the host. -/
def kbd_buffer_store_event (event : input_event) : XD Unit :=
  fun st => (.ok (), { st with kbd_buffer := st.kbd_buffer ++ [event] })

/-- The C idiom `strcpy (s, src)` into a `char s[1024]`: the C string `src`, which
must not be `NULL` and must fit the buffer with its terminating NUL. -/
def strcpy_1024 (src : Option String) : XD String :=
  match src with
  | none => undefined_behaviour
  | some s => if (c_string s).length < 1024 then pure (c_string s) else undefined_behaviour

/-! ## The macros and functions of `dbusbind.c` -/

/-- The text that `XD_SYMBOL_INTERN_SYMBOL` assembles with `strcpy` and `strcat`: the
C strings of the name of the bus, of `interface` and of `member`, joined by dots. -/
def dispatch_key_text (name interface member : String) : String :=
  c_string name ++ "." ++ c_string interface ++ "." ++ c_string member

/-- The macro `XD_SYMBOL_INTERN_SYMBOL`: `strcpy` and `strcat` the name of `bus`,
a dot, `interface`, a dot and `member` into `char s[1024]`, and intern the
result in `Vdbus_intern_symbols`. -/
def XD_SYMBOL_INTERN_SYMBOL (bus interface member : Lisp_Object) : XD Lisp_Object := fun st =>
  match SYMBOL_NAME st bus with
  | none => (.undefined, st)
  | some name =>
    (do
      let s ← strcpy_1024 (some (dispatch_key_text name (SDATA interface) (SDATA member)))
      Fintern (build_string s)) st

/-- The character that `strchr (s, newline)` looks for. -/
def newline : Char := Char.ofNat 10

/-- The macro `XD_ERROR`: copy the message into `char s[1024]`, overwrite the last
byte with NUL when the message contains a newline anywhere, and signal
`dbus-error` with the text. -/
def XD_ERROR {α : Type} (message : String) : XD α := do
  let s ← strcpy_1024 (some message)
  let s : String := if s.data.contains newline then ⟨s.data.dropLast⟩ else s
  xsignal1 Qdbus_error (build_string s)

/-- The function xd_initialize of the source. -/
def xd_initialize (E : DBusEnv) (bus : Lisp_Object) : XD DBusBusType := do
  CHECK_SYMBOL bus
  if !(EQ bus Qdbus_system_bus || EQ bus Qdbus_session_bus) then
    xsignal2 Qdbus_error (build_string "Wrong bus name") bus
  else
    let type := if EQ bus Qdbus_system_bus then DBUS_BUS_SYSTEM else DBUS_BUS_SESSION
    match E.dbus_bus_get type with
    | .error message => XD_ERROR message
    | .null => xsignal2 Qdbus_error (build_string "No connection") bus
    | .connection => pure type

/-- The libdbus call `dbus_message_append_args (dmessage, dtype, &value,
DBUS_TYPE_INVALID)`: the message with one more argument, or `none` for `FALSE`. -/
def dbus_message_append_args (E : DBusEnv) (dmessage : DBusMessage) (dtype : Nat)
    (value : CharPtr) : Option DBusMessage :=
  match dbus_read_basic dtype value with
  | none => none
  | some w =>
    if E.dbus_message_append_args dmessage w then
      some { dmessage with args := dmessage.args ++ [w] }
    else none

/-- The loop `for (i = 5; i < nargs; ++i)` of `Fdbus_call_method` and of
`Fdbus_send_signal` (the two bodies are the same text). -/
def xd_append_parameters (P : Platform) (E : DBusEnv) :
    DBusMessage → List Lisp_Object → XD DBusMessage
  | dmessage, [] => pure dmessage
  | dmessage, arg :: rest =>
    if XD_LISP_OBJECT_TO_DBUS_TYPE arg = DBUS_TYPE_INVALID then
      xsignal2 Qdbus_error (build_string "Not a valid argument") arg
    else
      match dbus_message_append_args E dmessage (XD_LISP_OBJECT_TO_DBUS_TYPE arg)
          (xd_retrieve_value P (XD_LISP_OBJECT_TO_DBUS_TYPE arg) arg) with
      | none => xsignal2 Qdbus_error (build_string "Unable to append argument") arg
      | some dmessage1 => xd_append_parameters P E dmessage1 rest

/-- The libdbus call `dbus_message_iter_init`: it returns `FALSE` if the message
has no arguments (the documented return value), that is, when the type under
the fresh cursor is `DBUS_TYPE_INVALID`. -/
def dbus_message_iter_init (message : DBusMessage) : Bool :=
  dbus_message_iter_get_arg_type message.args != DBUS_TYPE_INVALID

/-- The libdbus call `dbus_connection_send_with_reply_and_block`: the message is
handed to the transport and the answer of the peer is awaited. -/
def dbus_connection_send_with_reply_and_block (E : DBusEnv) (connection : DBusBusType)
    (dmessage : DBusMessage) : XD Reply := fun st =>
  (.ok (E.dbus_connection_send_with_reply_and_block connection dmessage),
   st.set_connection connection
     { st.connection connection with
       written := (st.connection connection).written ++ [dmessage] })

/-- The libdbus calls `dbus_connection_send` and `dbus_connection_flush`: when the
message can be queued it is handed to the transport. -/
def dbus_connection_send (E : DBusEnv) (connection : DBusBusType)
    (dmessage : DBusMessage) : XD Bool := fun st =>
  if E.dbus_connection_send connection dmessage then
    (.ok true,
     st.set_connection connection
       { st.connection connection with
         written := (st.connection connection).written ++ [dmessage] })
  else (.ok false, st)

/-- The function `Fdbus_call_method` (`dbus-call-method`); `args` are the
arguments after the five required ones. -/
def Fdbus_call_method (P : Platform) (E : DBusEnv)
    (bus method service path interface : Lisp_Object) (args : List Lisp_Object) :
    XD Lisp_Object := do
  CHECK_SYMBOL bus
  CHECK_STRING method
  CHECK_STRING service
  CHECK_STRING path
  CHECK_STRING interface
  let connection ← xd_initialize E bus
  if !E.dbus_message_new_method_call (c_string (SDATA service)) (c_string (SDATA path))
      (c_string (SDATA interface)) (c_string (SDATA method)) then
    xsignal1 Qdbus_error (build_string "Unable to create a new message")
  else
    let dmessage ← xd_append_parameters P E
      { path := some (c_string (SDATA path)), interface := some (c_string (SDATA interface)),
        member := some (c_string (SDATA method)), sender := none,
        destination := some (c_string (SDATA service)), args := [] } args
    let reply ← dbus_connection_send_with_reply_and_block E connection dmessage
    match reply with
    | .error message => XD_ERROR message
    | .null => xsignal1 Qdbus_error (build_string "No reply")
    | .message reply =>
      if !dbus_message_iter_init reply then
        xsignal1 Qdbus_error (build_string "Cannot read reply")
      else
        let result := xd_retrieve_arg_loop P reply.args Qnil
        if Flength result = 1 then pure (XCAR result) else pure (Fnreverse result)

/-- The function `Fdbus_send_signal` (`dbus-send-signal`). -/
def Fdbus_send_signal (P : Platform) (E : DBusEnv)
    (bus signal service path interface : Lisp_Object) (args : List Lisp_Object) :
    XD Lisp_Object := do
  CHECK_SYMBOL bus
  CHECK_STRING signal
  CHECK_STRING service
  CHECK_STRING path
  CHECK_STRING interface
  let connection ← xd_initialize E bus
  if !E.dbus_message_new_signal (c_string (SDATA path)) (c_string (SDATA interface))
      (c_string (SDATA signal)) then
    xsignal1 Qdbus_error (build_string "Unable to create a new message")
  else
    let dmessage ← xd_append_parameters P E
      { path := some (c_string (SDATA path)), interface := some (c_string (SDATA interface)),
        member := some (c_string (SDATA signal)), sender := none,
        destination := none, args := [] } args
    let sent ← dbus_connection_send E connection dmessage
    if !sent then xsignal1 Qdbus_error (build_string "Cannot send message")
    else pure Qt

/-- The libdbus call `dbus_connection_pop_message` after the non-blocking
`dbus_connection_read_write (connection, 0)`: take the first incoming message
off the queue, `none` for `NULL` when the queue is empty. -/
def dbus_connection_pop_message (connection : DBusBusType) : XD (Option DBusMessage) := fun st =>
  match (st.connection connection).incoming with
  | [] => (.ok none, st)
  | dmessage :: rest =>
    (.ok (some dmessage),
     st.set_connection connection { st.connection connection with incoming := rest })

/-- Lines 636 to 644 of `xd_read_message`: copy interface and member of the message
into `s1` and `s2` and intern the symbol of the message. -/
def xd_read_message_symbol (bus : Lisp_Object) (dmessage : DBusMessage) : XD Lisp_Object := do
  let s1 ← strcpy_1024 dmessage.interface
  let s2 ← strcpy_1024 dmessage.member
  XD_SYMBOL_INTERN_SYMBOL bus (build_string s1) (build_string s2)

/-- The function `xd_read_message`. -/
def xd_read_message (P : Platform) (E : DBusEnv) (bus : Lisp_Object) : XD Unit := do
  let connection ← xd_initialize E bus
  let popped ← dbus_connection_pop_message connection
  match popped with
  | none => pure ()
  | some dmessage =>
    if !dbus_message_iter_init dmessage then pure ()
    else
      let arg := Fnreverse (xd_retrieve_arg_loop P dmessage.args Qnil)
      let s1 ← strcpy_1024 dmessage.path
      let arg := Fcons (build_string s1) arg
      let s2 ← strcpy_1024 dmessage.sender
      let arg := Fcons (build_string s2) arg
      let sym ← xd_read_message_symbol bus dmessage
      let arg := Fcons sym arg
      kbd_buffer_store_event { frame_or_window := Qnil, arg := arg }

/-- The function `xd_read_queued_messages`. -/
def xd_read_queued_messages (P : Platform) (E : DBusEnv) : XD Unit := do
  xd_read_message P E Qdbus_system_bus
  xd_read_message P E Qdbus_session_bus

/-- The text that `sprintf` writes into `char rule[1024]` in `Fdbus_register_signal`
for the format `type=\x27signal\x27,interface=\x27%s\x27,member=%s%`; the lone
percent sign at the end of the format is an incomplete conversion, for which the
C library writes nothing more. -/
def match_rule (interface signal : String) : String :=
  "type=\x27signal\x27,interface=\x27" ++ interface ++ "\x27,member=" ++ signal

/-- The libdbus call `dbus_bus_add_match (connection, rule, &derror)`: the rule is
installed unless the daemon answers with an error, whose message is returned. -/
def dbus_bus_add_match (E : DBusEnv) (connection : DBusBusType) (rule : String) :
    XD (Option String) := fun st =>
  match E.dbus_bus_add_match connection rule with
  | some message => (.ok (some message), st)
  | none =>
    (.ok none,
     st.set_connection connection
       { st.connection connection with
         match_rules := (st.connection connection).match_rules ++ [rule] })

/-- The function `Fdbus_register_signal` (`dbus-register-signal`). -/
def Fdbus_register_signal (E : DBusEnv)
    (bus signal service path interface handler : Lisp_Object) : XD Lisp_Object := do
  CHECK_SYMBOL bus
  CHECK_STRING signal
  CHECK_STRING service
  CHECK_STRING path
  CHECK_STRING interface
  CHECK_SYMBOL handler
  let connection ← xd_initialize E bus
  let rule ← strcpy_1024 (some (match_rule (c_string (SDATA interface)) (c_string (SDATA signal))))
  let derror ← dbus_bus_add_match E connection rule
  match derror with
  | some message => XD_ERROR message
  | none =>
    let result ← XD_SYMBOL_INTERN_SYMBOL bus interface signal
    let definition ← Fsymbol_function handler
    let _ ← Ffset result definition
    pure result

/-- The function `Fdbus_unregister_signal` (`dbus-unregister-signal`). -/
def Fdbus_unregister_signal (object : Lisp_Object) : XD Lisp_Object := do
  CHECK_SYMBOL object
  let _ ← Funintern object
  pure Qnil

/-- The symbol cells that exist after `syms_of_dbusbind`: `nil`, `t`, `:system`,
`:session`, `dbus-error` and the error symbols of data.c the model names. -/
def initial_symbols : List Lisp_Symbol :=
  [ { name := "nil", function := none }, { name := "t", function := none },
    { name := ":system", function := none }, { name := ":session", function := none },
    { name := "dbus-error", function := none },
    { name := "wrong-type-argument", function := none },
    { name := "symbolp", function := some (vectorlike 0) },
    { name := "stringp", function := some (vectorlike 1) },
    { name := "void-function", function := none },
    { name := "setting-constant", function := none } ]

/-- A connection on which nothing has happened. -/
def DBusConnection.fresh : DBusConnection := { written := [], incoming := [], match_rules := [] }

/-- The state after `syms_of_dbusbind`: `Vdbus_intern_symbols` is an empty obarray. -/
def syms_of_dbusbind : State :=
  { symbols := initial_symbols, Vdbus_intern_symbols := [], kbd_buffer := [],
    system_bus := DBusConnection.fresh, session_bus := DBusConnection.fresh }

/-- The obarray and the symbol heap agree: a name is entered in
`Vdbus_intern_symbols` with a pointer to a symbol cell of that name.  This holds
after `syms_of_dbusbind` and every function of the file keeps it. -/
def State.wf (st : State) : Prop :=
  ∀ name k, oblookup st.Vdbus_intern_symbols name = some k →
    SYMBOL_NAME st (symbol k) = some name

/-- The libdbus side is healthy: the bus can be reached, messages can be created and
arguments can be appended (no lack of memory). -/
def DBusEnv.healthy (E : DBusEnv) : Prop :=
  (∀ t, E.dbus_bus_get t = .connection) ∧
  (∀ a b c d, E.dbus_message_new_method_call a b c d = true) ∧
  (∀ a b c, E.dbus_message_new_signal a b c = true) ∧
  (∀ m w, E.dbus_message_append_args m w = true)

/-- A 64-bit build: 61 value bits; floats live at some address. -/
def P64 : Platform := { VALBITS := 61, XFLOAT := fun _ => 140737488355328 }

/-- An environment in which every libdbus call succeeds and the peer answers a
method call by echoing its arguments. -/
def example_env : DBusEnv :=
  { dbus_bus_get := fun _ => .connection
    dbus_message_new_method_call := fun _ _ _ _ => true
    dbus_message_new_signal := fun _ _ _ => true
    dbus_message_append_args := fun _ _ => true
    dbus_connection_send_with_reply_and_block := fun _ m =>
      .message { path := none, interface := none, member := none, sender := some ":1.7",
                 destination := some ":1.3", args := m.args }
    dbus_connection_send := fun _ _ => true
    dbus_bus_add_match := fun _ _ => none }

/-- The state after `syms_of_dbusbind` with one more symbol, `my-handler` (pointer
10), whose function cell is bound. -/
def example_state : State :=
  { syms_of_dbusbind with
    symbols := initial_symbols ++ [{ name := "my-handler", function := some (vectorlike 7) }] }

/-- The state `example_state` after `(dbus-register-signal :session "Tick" "org.s"
"/p" "org.example.Iface" (quote my-handler))`. -/
def example_registered : State :=
  (Fdbus_register_signal example_env Qdbus_session_bus (string "Tick") (string "org.s")
    (string "/p") (string "org.example.Iface") (symbol 10) example_state).2

/-- The state `example_registered` after a second registration of the same signal,
now with the handler `stringp`. -/
def example_registered_twice : State :=
  (Fdbus_register_signal example_env Qdbus_session_bus (string "Tick") (string "org.t")
    (string "/q") (string "org.example.Iface") Qstringp example_registered).2

/-- A signal `Tick` of the interface `org.example.Iface` with two arguments. -/
def example_message : DBusMessage :=
  { path := some "/p", interface := some "org.example.Iface", member := some "Tick",
    sender := some ":1.9", destination := none,
    args := [.uint32 1, .array [.string "a", .string "b"]] }

/-- The message `example_message` with an object path of 1024 bytes: a slash and
1023 letters.  D-Bus bounds the length of names, not of object paths. -/
def example_long_path_message : DBusMessage :=
  { example_message with path := some ("/" ++ String.mk (List.replicate 1023 (Char.ofNat 97))) }

/-- The state `example_registered` with one message pending on the session bus. -/
def example_pending (dmessage : DBusMessage) : State :=
  { example_registered with
    session_bus := { example_registered.session_bus with incoming := [dmessage] } }

/-- The environment `example_env` on a machine where no system bus can be reached:
`dbus_bus_get (DBUS_BUS_SYSTEM, &derror)` sets the error. -/
def example_env_no_system_bus : DBusEnv :=
  { example_env with
    dbus_bus_get := fun t =>
      match t with
      | DBUS_BUS_SYSTEM => .error "Failed to connect to socket\n"
      | DBUS_BUS_SESSION => .connection }

/-- The state `example_state` after `(dbus-register-signal :session "c" "org.s" "/p"
"a.b" (quote my-handler))`. -/
def example_registered_dotted : State :=
  (Fdbus_register_signal example_env Qdbus_session_bus (string "c") (string "org.s")
    (string "/p") (string "a.b") (symbol 10) example_state).2

/-- The state `example_state` after `(dbus-register-signal :session "Tick" "org.s" "/p"
"org.a\0X" (quote my-handler))`, whose interface is a Lisp string of seven bytes
with a NUL in it. -/
def example_registered_nul : State :=
  (Fdbus_register_signal example_env Qdbus_session_bus (string "Tick") (string "org.s")
    (string "/p") (string "org.a\x00X") (symbol 10) example_state).2

/-- The state `example_registered` after `(dbus-register-signal :system "Tick" "org.s"
"/p" "org.example.Iface" (quote stringp))`: the same interface and signal as in
`example_registered`, on the other bus. -/
def example_registered_system : State :=
  (Fdbus_register_signal example_env Qdbus_system_bus (string "Tick") (string "org.s")
    (string "/p") (string "org.example.Iface") Qstringp example_registered).2

/-- Two states agree on the event queue and on both connections. -/
def State.same_io (s s1 : State) : Prop :=
  s1.kbd_buffer = s.kbd_buffer ∧ ∀ d, s1.connection d = s.connection d

/-- Between `st` and `s1` at most the first message left the incoming queue of the
connection `c`, the other connection is the same, and at most one event was put at the
end of the event queue. -/
def State.one_step (c : DBusBusType) (st s1 : State) : Prop :=
  ((s1.connection c).incoming = (st.connection c).incoming ∨
    ∃ dmessage, (st.connection c).incoming = dmessage :: (s1.connection c).incoming) ∧
  (∀ d, d ≠ c → s1.connection d = st.connection d) ∧
  (s1.kbd_buffer = st.kbd_buffer ∨ ∃ event, s1.kbd_buffer = st.kbd_buffer ++ [event])

/-! ## Lemmas on the codec -/

@[simp] theorem XD_bind_apply {α β : Type} (m : XD α) (f : α → XD β) (st : State) :
    (m >>= f) st =
      match m st with
      | (.ok a, st1) => f a st1
      | (.signal e d, st1) => (.signal e d, st1)
      | (.undefined, st1) => (.undefined, st1) := rfl

@[simp] theorem XD_pure_apply {α : Type} (a : α) (st : State) :
    (pure a : XD α) st = (.ok a, st) := rfl

theorem dbus_type_symbol (id : Nat) :
    XD_LISP_OBJECT_TO_DBUS_TYPE (symbol id) =
      if id = 1 ∨ id = 0 then DBUS_TYPE_BOOLEAN else DBUS_TYPE_INVALID := by
  simp [XD_LISP_OBJECT_TO_DBUS_TYPE, EQ, Qt, Qnil, NATNUMP, INTEGERP, FLOATP, STRINGP]

theorem dbus_type_int (n : Int) :
    XD_LISP_OBJECT_TO_DBUS_TYPE (int n) =
      if 0 ≤ n then DBUS_TYPE_UINT32 else DBUS_TYPE_INT32 := by
  simp [XD_LISP_OBJECT_TO_DBUS_TYPE, EQ, Qt, Qnil, NATNUMP, INTEGERP, XINT]

theorem dbus_type_float (b : Nat) :
    XD_LISP_OBJECT_TO_DBUS_TYPE (float b) = DBUS_TYPE_DOUBLE := by
  simp [XD_LISP_OBJECT_TO_DBUS_TYPE, EQ, Qt, Qnil, NATNUMP, INTEGERP, FLOATP]

theorem dbus_type_string (s : String) :
    XD_LISP_OBJECT_TO_DBUS_TYPE (string s) = DBUS_TYPE_STRING := by
  simp [XD_LISP_OBJECT_TO_DBUS_TYPE, EQ, Qt, Qnil, NATNUMP, INTEGERP, FLOATP, STRINGP]

theorem dbus_type_cons (a d : Lisp_Object) :
    XD_LISP_OBJECT_TO_DBUS_TYPE (cons a d) = DBUS_TYPE_INVALID := by
  simp [XD_LISP_OBJECT_TO_DBUS_TYPE, EQ, Qt, Qnil, NATNUMP, INTEGERP, FLOATP, STRINGP]

theorem dbus_type_vectorlike (id : Nat) :
    XD_LISP_OBJECT_TO_DBUS_TYPE (vectorlike id) = DBUS_TYPE_INVALID := by
  simp [XD_LISP_OBJECT_TO_DBUS_TYPE, EQ, Qt, Qnil, NATNUMP, INTEGERP, FLOATP, STRINGP]

/-- An object of a valid type has a payload that libdbus can read. -/
theorem encode_isSome (P : Platform) (v : Lisp_Object)
    (h : XD_LISP_OBJECT_TO_DBUS_TYPE v ≠ DBUS_TYPE_INVALID) :
    ∃ w, dbus_read_basic (XD_LISP_OBJECT_TO_DBUS_TYPE v)
      (xd_retrieve_value P (XD_LISP_OBJECT_TO_DBUS_TYPE v) v) = some w := by
  cases v with
  | symbol id =>
    rw [dbus_type_symbol] at h ⊢
    by_cases hid : id = 1 ∨ id = 0
    · simp only [hid, if_true]
      simp only [xd_retrieve_value, DBUS_TYPE_BOOLEAN, if_true]
      split <;> simp [dbus_read_basic, DBUS_TYPE_BOOLEAN]
    · simp [hid] at h
  | int n =>
    rw [dbus_type_int]
    by_cases hn : 0 ≤ n
    · simp [hn, xd_retrieve_value, dbus_read_basic, DBUS_TYPE_UINT32, DBUS_TYPE_BOOLEAN]
    · simp [hn, xd_retrieve_value, dbus_read_basic, DBUS_TYPE_UINT32, DBUS_TYPE_BOOLEAN,
        DBUS_TYPE_INT32]
  | float b =>
    simp [dbus_type_float, xd_retrieve_value, dbus_read_basic, DBUS_TYPE_UINT32,
      DBUS_TYPE_BOOLEAN, DBUS_TYPE_INT32, DBUS_TYPE_DOUBLE]
  | string s =>
    simp [dbus_type_string, xd_retrieve_value, dbus_read_basic, DBUS_TYPE_UINT32,
      DBUS_TYPE_BOOLEAN, DBUS_TYPE_INT32, DBUS_TYPE_DOUBLE, DBUS_TYPE_STRING]
  | cons a d => exact absurd (dbus_type_cons a d) h
  | vectorlike id => exact absurd (dbus_type_vectorlike id) h

/-- The loop over the arguments stops at the first argument of invalid type with
the error that carries it, when the arguments in front of it can be appended. -/
theorem xd_append_parameters_invalid (P : Platform) (E : DBusEnv)
    (hE : ∀ m w, E.dbus_message_append_args m w = true)
    (v : Lisp_Object) (post : List Lisp_Object)
    (hv : XD_LISP_OBJECT_TO_DBUS_TYPE v = DBUS_TYPE_INVALID) :
    ∀ (pre : List Lisp_Object) (dmessage : DBusMessage) (st : State),
      (∀ a ∈ pre, XD_LISP_OBJECT_TO_DBUS_TYPE a ≠ DBUS_TYPE_INVALID) →
      xd_append_parameters P E dmessage (pre ++ v :: post) st =
        (.signal Qdbus_error (lisp_list [build_string "Not a valid argument", v]), st) := by
  intro pre
  induction pre with
  | nil =>
    intro dmessage st _
    simp [xd_append_parameters, hv, xsignal2]
  | cons a pre ih =>
    intro dmessage st hpre
    have ha : XD_LISP_OBJECT_TO_DBUS_TYPE a ≠ DBUS_TYPE_INVALID := hpre a (by simp)
    obtain ⟨w, hw⟩ := encode_isSome P a ha
    simp only [List.cons_append, xd_append_parameters, ha, if_false,
      dbus_message_append_args, hw, hE, if_true]
    exact ih _ st (fun b hb => hpre b (by simp [hb]))

/-- The loop over the arguments never ends normally when some argument has an
invalid type, and it leaves the state as it is in every case. -/
theorem xd_append_parameters_state (P : Platform) (E : DBusEnv) :
    ∀ (args : List Lisp_Object) (dmessage : DBusMessage) (st : State),
      (xd_append_parameters P E dmessage args st).2 = st ∧
      ((∃ v ∈ args, XD_LISP_OBJECT_TO_DBUS_TYPE v = DBUS_TYPE_INVALID) →
        ∃ e d, (xd_append_parameters P E dmessage args st).1 = .signal e d) := by
  intro args
  induction args with
  | nil =>
    intro dmessage st
    simp [xd_append_parameters]
  | cons a args ih =>
    intro dmessage st
    by_cases ha : XD_LISP_OBJECT_TO_DBUS_TYPE a = DBUS_TYPE_INVALID
    · simp [xd_append_parameters, ha, xsignal2]
    · simp only [xd_append_parameters, ha, if_false]
      cases hm : dbus_message_append_args E dmessage (XD_LISP_OBJECT_TO_DBUS_TYPE a)
          (xd_retrieve_value P (XD_LISP_OBJECT_TO_DBUS_TYPE a) a) with
      | none => simp [xsignal2]
      | some m1 =>
        refine ⟨(ih m1 st).1, ?_⟩
        rintro ⟨v, hv, hvt⟩
        rcases List.mem_cons.mp hv with rfl | hv
        · exact absurd hvt ha
        · exact (ih m1 st).2 ⟨v, hv, hvt⟩

/-- On a healthy libdbus side xd_initialize returns the connection of either bus
and leaves the state as it is. -/
theorem xd_initialize_healthy (E : DBusEnv) (hE : E.healthy) (bus : Lisp_Object)
    (hbus : bus = Qdbus_system_bus ∨ bus = Qdbus_session_bus) (st : State) :
    xd_initialize E bus st =
      (.ok (if EQ bus Qdbus_system_bus then DBUS_BUS_SYSTEM else DBUS_BUS_SESSION), st) := by
  rcases hbus with rfl | rfl <;>
    simp [ xd_initialize, CHECK_SYMBOL, SYMBOLP, Qdbus_system_bus, Qdbus_session_bus, EQ, hE.1]

/-- The call in `Fdbus_call_method` stops at the first argument of invalid type. -/
theorem call_method_invalid_argument (P : Platform) (E : DBusEnv) (hE : E.healthy)
    (bus method service path interface : Lisp_Object)
    (hbus : bus = Qdbus_system_bus ∨ bus = Qdbus_session_bus)
    (hm : STRINGP method = true) (hs : STRINGP service = true) (hp : STRINGP path = true)
    (hi : STRINGP interface = true)
    (pre : List Lisp_Object) (v : Lisp_Object) (post : List Lisp_Object)
    (hpre : ∀ a ∈ pre, XD_LISP_OBJECT_TO_DBUS_TYPE a ≠ DBUS_TYPE_INVALID)
    (hv : XD_LISP_OBJECT_TO_DBUS_TYPE v = DBUS_TYPE_INVALID) (st : State) :
    Fdbus_call_method P E bus method service path interface (pre ++ v :: post) st =
      (.signal Qdbus_error (lisp_list [build_string "Not a valid argument", v]), st) := by
  have hsym : SYMBOLP bus = true := by rcases hbus with rfl | rfl <;> rfl
  simp [Fdbus_call_method, CHECK_SYMBOL, CHECK_STRING, hsym, hm, hs, hp, hi,
    xd_initialize_healthy E hE bus hbus, hE.2.1,
    xd_append_parameters_invalid P E hE.2.2.2 v post hv pre _ st hpre]

/-- The call in `Fdbus_send_signal` stops at the first argument of invalid type. -/
theorem send_signal_invalid_argument (P : Platform) (E : DBusEnv) (hE : E.healthy)
    (bus signal service path interface : Lisp_Object)
    (hbus : bus = Qdbus_system_bus ∨ bus = Qdbus_session_bus)
    (hm : STRINGP signal = true) (hs : STRINGP service = true) (hp : STRINGP path = true)
    (hi : STRINGP interface = true)
    (pre : List Lisp_Object) (v : Lisp_Object) (post : List Lisp_Object)
    (hpre : ∀ a ∈ pre, XD_LISP_OBJECT_TO_DBUS_TYPE a ≠ DBUS_TYPE_INVALID)
    (hv : XD_LISP_OBJECT_TO_DBUS_TYPE v = DBUS_TYPE_INVALID) (st : State) :
    Fdbus_send_signal P E bus signal service path interface (pre ++ v :: post) st =
      (.signal Qdbus_error (lisp_list [build_string "Not a valid argument", v]), st) := by
  have hsym : SYMBOLP bus = true := by rcases hbus with rfl | rfl <;> rfl
  simp [Fdbus_send_signal, CHECK_SYMBOL, CHECK_STRING, hsym, hm, hs, hp, hi,
    xd_initialize_healthy E hE bus hbus, hE.2.2.1,
    xd_append_parameters_invalid P E hE.2.2.2 v post hv pre _ st hpre]

theorem example_env_healthy : example_env.healthy :=
  ⟨fun _ => rfl, fun _ _ _ _ => rfl, fun _ _ _ => rfl, fun _ _ => rfl⟩

/-! ## C1: the five scalar mappings and the error for every other value -/

/-- C1: the wire type chosen by `XD_LISP_OBJECT_TO_DBUS_TYPE` for a value `v` is
Bool exactly when `v` is `t` or `nil`, UInt32 exactly when `v` is a non-negative
integer, Int32 exactly when `v` is a negative integer, Double exactly when `v` is
a float and String exactly when `v` is a string.  Every other value, in
particular every cons cell (non-empty list) and every vector-like object, gets
`DBUS_TYPE_INVALID`: no wire value is produced for it, and when it is the first
such argument of `dbus-call-method` or `dbus-send-signal` (whose required
arguments are well typed and whose libdbus side is healthy) the call signals
`dbus-error` with the data `("Not a valid argument" v)`, which carries `v`. -/
theorem C1_encode_type_mapping (P : Platform) (E : DBusEnv) (v : Lisp_Object) :
    (XD_LISP_OBJECT_TO_DBUS_TYPE v = DBUS_TYPE_BOOLEAN ↔ (v = Qt ∨ v = Qnil)) ∧
    (XD_LISP_OBJECT_TO_DBUS_TYPE v = DBUS_TYPE_UINT32 ↔ ∃ n : Int, 0 ≤ n ∧ v = int n) ∧
    (XD_LISP_OBJECT_TO_DBUS_TYPE v = DBUS_TYPE_INT32 ↔ ∃ n : Int, n < 0 ∧ v = int n) ∧
    (XD_LISP_OBJECT_TO_DBUS_TYPE v = DBUS_TYPE_DOUBLE ↔ ∃ b : Nat, v = float b) ∧
    (XD_LISP_OBJECT_TO_DBUS_TYPE v = DBUS_TYPE_STRING ↔ ∃ s : String, v = string s) ∧
    (XD_LISP_OBJECT_TO_DBUS_TYPE v = DBUS_TYPE_INVALID ↔
      (v ≠ Qt ∧ v ≠ Qnil ∧ (∀ n : Int, v ≠ int n) ∧ (∀ b : Nat, v ≠ float b) ∧
        ∀ s : String, v ≠ string s)) ∧
    ((∃ a d, v = cons a d) ∨ (∃ id, v = vectorlike id) →
      XD_LISP_OBJECT_TO_DBUS_TYPE v = DBUS_TYPE_INVALID) ∧
    (XD_LISP_OBJECT_TO_DBUS_TYPE v = DBUS_TYPE_INVALID →
      encode P v = none ∧
      ∀ (bus member service path interface : Lisp_Object) (pre post : List Lisp_Object)
        (st : State),
        E.healthy → (bus = Qdbus_system_bus ∨ bus = Qdbus_session_bus) →
        STRINGP member = true → STRINGP service = true → STRINGP path = true →
        STRINGP interface = true →
        (∀ a ∈ pre, XD_LISP_OBJECT_TO_DBUS_TYPE a ≠ DBUS_TYPE_INVALID) →
        Fdbus_call_method P E bus member service path interface (pre ++ v :: post) st =
          (.signal Qdbus_error (lisp_list [build_string "Not a valid argument", v]), st) ∧
        Fdbus_send_signal P E bus member service path interface (pre ++ v :: post) st =
          (.signal Qdbus_error (lisp_list [build_string "Not a valid argument", v]), st)) := by
  refine ⟨?_, ?_, ?_, ?_, ?_, ?_, ?_, ?_⟩
  iterate 6
    cases v <;>
      simp [dbus_type_symbol, dbus_type_int, dbus_type_float, dbus_type_string, dbus_type_cons,
        dbus_type_vectorlike, Qt, Qnil, DBUS_TYPE_BOOLEAN, DBUS_TYPE_INVALID, DBUS_TYPE_UINT32,
        DBUS_TYPE_INT32, DBUS_TYPE_DOUBLE, DBUS_TYPE_STRING] <;>
      first
        | omega
        | (split <;> simp)
  · rintro (⟨a, d, rfl⟩ | ⟨id, rfl⟩)
    · exact dbus_type_cons a d
    · exact dbus_type_vectorlike id
  · intro hv
    refine ⟨by simp [encode, hv], ?_⟩
    intro bus member service path interface pre post st hE hbus hm hs hp hi hpre
    exact ⟨call_method_invalid_argument P E hE bus member service path interface hbus hm hs hp hi
        pre v post hpre hv st,
      send_signal_invalid_argument P E hE bus member service path interface hbus hm hs hp hi
        pre v post hpre hv st⟩

/-- Witness of C1: the call `(dbus-call-method :session "M" "org.s" "/p" "org.i" 42 (1))`
signals the error that carries the list `(1)`. -/
theorem C1_encode_type_mapping_witness :
    XD_LISP_OBJECT_TO_DBUS_TYPE (cons (int 1) Qnil) = DBUS_TYPE_INVALID ∧
    Fdbus_call_method P64 example_env Qdbus_session_bus (string "M") (string "org.s")
        (string "/p") (string "org.i") ([int 42] ++ cons (int 1) Qnil :: []) example_state =
      (.signal Qdbus_error
        (lisp_list [build_string "Not a valid argument", cons (int 1) Qnil]), example_state) :=
  ⟨by decide,
   ((C1_encode_type_mapping P64 example_env (cons (int 1) Qnil)).2.2.2.2.2.2.2 (by decide)).2
      Qdbus_session_bus (string "M") (string "org.s") (string "/p") (string "org.i")
      [int 42] [] example_state example_env_healthy (Or.inr rfl) rfl rfl rfl rfl
      (by decide) |>.1⟩

/-! ## Lemmas on lists: the cons-and-reverse loops -/

theorem arg_type_ne_invalid (v : WireValue) : v.arg_type ≠ DBUS_TYPE_INVALID := by
  cases v <;> simp [WireValue.arg_type, DBUS_TYPE_INVALID, DBUS_TYPE_BYTE, DBUS_TYPE_BOOLEAN,
    DBUS_TYPE_INT16, DBUS_TYPE_UINT16, DBUS_TYPE_INT32, DBUS_TYPE_UINT32, DBUS_TYPE_INT64,
    DBUS_TYPE_UINT64, DBUS_TYPE_DOUBLE, DBUS_TYPE_STRING, DBUS_TYPE_OBJECT_PATH,
    DBUS_TYPE_SIGNATURE, DBUS_TYPE_ARRAY, DBUS_TYPE_VARIANT, DBUS_TYPE_STRUCT,
    DBUS_TYPE_DICT_ENTRY, DBUS_TYPE_UNIX_FD]

theorem Fnreverse_loop_lisp_list (xs ys : List Lisp_Object) :
    Fnreverse_loop (lisp_list xs) (lisp_list ys) = lisp_list (xs.reverse ++ ys) := by
  induction xs generalizing ys with
  | nil => simp [lisp_list, Fnreverse_loop, Qnil]
  | cons x xs ih =>
    simp only [lisp_list, Fnreverse_loop]
    rw [show cons x (lisp_list ys) = lisp_list (x :: ys) from rfl, ih]
    simp

theorem Fnreverse_lisp_list (xs : List Lisp_Object) :
    Fnreverse (lisp_list xs) = lisp_list xs.reverse := by
  have h := Fnreverse_loop_lisp_list xs []
  simpa [Fnreverse, lisp_list] using h

theorem xd_retrieve_arg_loop_eq (P : Platform) (vs : List WireValue) (ys : List Lisp_Object) :
    xd_retrieve_arg_loop P vs (lisp_list ys) =
      lisp_list ((vs.map (xd_retrieve_arg P)).reverse ++ ys) := by
  induction vs generalizing ys with
  | nil => simp [xd_retrieve_arg_loop]
  | cons v vs ih =>
    simp only [xd_retrieve_arg_loop, arg_type_ne_invalid v, ne_eq, not_false_eq_true, if_true,
      Fcons]
    rw [show cons (xd_retrieve_arg P v) (lisp_list ys) = lisp_list (xd_retrieve_arg P v :: ys)
      from rfl, ih]
    simp

/-- The loop that conses the decoded arguments, followed by `Fnreverse`, gives the
decoded arguments in wire order. -/
theorem decode_fields_eq (P : Platform) (vs : List WireValue) :
    Fnreverse (xd_retrieve_arg_loop P vs Qnil) = lisp_list (vs.map (xd_retrieve_arg P)) := by
  have h := xd_retrieve_arg_loop_eq P vs []
  simp only [lisp_list, List.append_nil] at h
  rw [h, Fnreverse_lisp_list, List.reverse_reverse]

theorem Flength_lisp_list (xs : List Lisp_Object) : Flength (lisp_list xs) = xs.length := by
  induction xs with
  | nil => rfl
  | cons x xs ih => simp [lisp_list, Flength, ih]

/-! ## C2: the round trip through `encode` and `xd_retrieve_arg` -/

/-- The round trip holds for the booleans, the non-negative integers and the strings
of the list of C2 on a 64-bit build. -/
theorem round_trip_holds :
    (encode P64 Qt).map (xd_retrieve_arg P64) = some Qt ∧
    (encode P64 Qnil).map (xd_retrieve_arg P64) = some Qnil ∧
    (encode P64 (int 0)).map (xd_retrieve_arg P64) = some (int 0) ∧
    (encode P64 (int 4294967295)).map (xd_retrieve_arg P64) = some (int 4294967295) ∧
    (encode P64 (string "")).map (xd_retrieve_arg P64) = some (string "") ∧
    (encode P64 (string "héllo")).map (xd_retrieve_arg P64) = some (string "héllo") := by
  refine ⟨?_, ?_, ?_, ?_, ?_, ?_⟩ <;> decide

/-- C2 (evaluation of the code where the round trip breaks): a float never comes
back, since `xd_retrieve_arg` has no case for `DBUS_TYPE_DOUBLE` and answers `nil`
(here for 3.14 and 0.0, given by their IEEE-754 bits, on every build); and on a
64-bit build the negative integers -1 and -2147483648 come back as 4294967295 and
2147483648, since `xd_retrieve_arg` reads an `INT32` into a `dbus_uint32_t`. -/
theorem C2_round_trip_broken :
    (∀ (P : Platform) (bits : Nat),
      (encode P (float bits)).map (xd_retrieve_arg P) = some Qnil) ∧
    (encode P64 (float 4614253070214989087)).map (xd_retrieve_arg P64)
      ≠ some (float 4614253070214989087) ∧
    (encode P64 (float 0)).map (xd_retrieve_arg P64) ≠ some (float 0) ∧
    (encode P64 (int (-1))).map (xd_retrieve_arg P64) = some (int 4294967295) ∧
    (encode P64 (int (-2147483648))).map (xd_retrieve_arg P64) = some (int 2147483648) := by
  refine ⟨?_, by decide, by decide, by decide, by decide⟩
  intro P bits
  simp [encode, dbus_type_float, xd_retrieve_value, dbus_read_basic, xd_retrieve_arg,
    DBUS_TYPE_DOUBLE, DBUS_TYPE_INVALID, DBUS_TYPE_BOOLEAN, DBUS_TYPE_UINT32, DBUS_TYPE_INT32]

/-! ## C3: containers decode in wire order -/

/-- C3: for each of the four compound types, `xd_retrieve_arg` returns the list of
the decoded children `c1, ..., cn`, of length `n`, in wire order; the children
are decoded by the same function, so this holds at every nesting depth.  In
particular an array of 1, 2, 3 decodes to the list (1 2 3), also when nested. -/
theorem C3_order_preservation (P : Platform) (cs : List WireValue) :
    xd_retrieve_arg P (.array cs) = lisp_list (cs.map (xd_retrieve_arg P)) ∧
    xd_retrieve_arg P (.variant cs) = lisp_list (cs.map (xd_retrieve_arg P)) ∧
    xd_retrieve_arg P (.struct cs) = lisp_list (cs.map (xd_retrieve_arg P)) ∧
    xd_retrieve_arg P (.dict_entry cs) = lisp_list (cs.map (xd_retrieve_arg P)) ∧
    Flength (xd_retrieve_arg P (.array cs)) = cs.length ∧
    xd_retrieve_arg P64 (.array [.uint32 1, .uint32 2, .uint32 3]) =
      lisp_list [int 1, int 2, int 3] ∧
    xd_retrieve_arg P64 (.struct [.string "a", .array [.uint32 1, .uint32 2, .uint32 3]]) =
      lisp_list [string "a", lisp_list [int 1, int 2, int 3]] := by
  have h := decode_fields_eq P cs
  refine ⟨?_, ?_, ?_, ?_, ?_, by decide, by decide⟩
  · simpa [xd_retrieve_arg] using h
  · simpa [xd_retrieve_arg] using h
  · simpa [xd_retrieve_arg] using h
  · simpa [xd_retrieve_arg] using h
  · simp [xd_retrieve_arg, h, Flength_lisp_list]

/-! ## C4: the shape of the result of `dbus-call-method` -/

/-- The outcome of `Fdbus_call_method` once the peer has answered with a reply
message, when the required arguments are well typed, the libdbus side is healthy
and all arguments can be encoded: the message is written, and the reply decides
the result. -/
theorem call_method_reply (P : Platform) (E : DBusEnv) (hE : E.healthy)
    (bus member service path interface : Lisp_Object)
    (hbus : bus = Qdbus_system_bus ∨ bus = Qdbus_session_bus)
    (hm : STRINGP member = true) (hs : STRINGP service = true) (hp : STRINGP path = true)
    (hi : STRINGP interface = true) (args : List Lisp_Object) (st : State)
    (dmessage : DBusMessage) (reply : DBusMessage)
    (happ : xd_append_parameters P E
      { path := some (c_string (SDATA path)), interface := some (c_string (SDATA interface)),
        member := some (c_string (SDATA member)), sender := none,
        destination := some (c_string (SDATA service)), args := [] } args st
        = (.ok dmessage, st))
    (hreply : E.dbus_connection_send_with_reply_and_block
      (if EQ bus Qdbus_system_bus then DBUS_BUS_SYSTEM else DBUS_BUS_SESSION) dmessage
        = .message reply) :
    (Fdbus_call_method P E bus member service path interface args st).1 =
      match reply.args with
      | [] => .signal Qdbus_error (lisp_list [build_string "Cannot read reply"])
      | [f1] => .ok (xd_retrieve_arg P f1)
      | fs => .ok (lisp_list (fs.map (xd_retrieve_arg P))) := by
  have hsym : SYMBOLP bus = true := by rcases hbus with rfl | rfl <;> rfl
  simp only [Fdbus_call_method, CHECK_SYMBOL, CHECK_STRING, hsym, hm, hs, hp, hi, if_true,
    XD_bind_apply, XD_pure_apply, xd_initialize_healthy E hE bus hbus, hE.2.1, Bool.not_true,
    Bool.false_eq_true, if_false, happ, dbus_connection_send_with_reply_and_block, hreply]
  cases hargs : reply.args with
  | nil =>
    simp [dbus_message_iter_init, hargs, dbus_message_iter_get_arg_type, xsignal1]
  | cons f1 rest =>
    have hinit : dbus_message_iter_init reply = true := by
      simp [dbus_message_iter_init, hargs, dbus_message_iter_get_arg_type,
        arg_type_ne_invalid f1]
    have hloop := xd_retrieve_arg_loop_eq P (f1 :: rest) []
    simp only [lisp_list, List.append_nil] at hloop
    simp only [hinit, Bool.not_true, Bool.false_eq_true, if_false, hloop,
      Flength_lisp_list, List.length_reverse, List.length_map, List.length_cons]
    cases rest with
    | nil => simp [lisp_list, XCAR]
    | cons f2 rest =>
      simp only [List.length_cons, Nat.add_eq_right, Nat.add_eq_zero, one_ne_zero, and_false,
        if_false, XD_pure_apply, Fnreverse_lisp_list, List.reverse_reverse]

/-- C4 (evaluation of the code on a reply without fields): the peer of
`example_env` echoes the arguments of the call, so a call without arguments gets
a successful reply with zero fields.  `dbus_message_iter_init` returns `FALSE` on
it and the call signals `dbus-error` with "Cannot read reply" where the claim
promises the empty list; with one field the value comes back unwrapped and with
three fields the list in reply order. -/
theorem C4_empty_reply_signals :
    (Fdbus_call_method P64 example_env Qdbus_session_bus (string "M") (string "org.s")
        (string "/p") (string "org.i") [] example_state).1 =
      .signal Qdbus_error (lisp_list [build_string "Cannot read reply"]) ∧
    (Fdbus_call_method P64 example_env Qdbus_session_bus (string "M") (string "org.s")
        (string "/p") (string "org.i") [int 42] example_state).1 = .ok (int 42) ∧
    (Fdbus_call_method P64 example_env Qdbus_session_bus (string "M") (string "org.s")
        (string "/p") (string "org.i") [int 42, Qt, string "x"] example_state).1 =
      .ok (lisp_list [int 42, Qt, string "x"]) := by
  refine ⟨?_, ?_, ?_⟩ <;> rfl

/-! ## C5: no message is sent when an argument cannot be encoded -/

theorem CHECK_SYMBOL_state (x : Lisp_Object) (st : State) : (CHECK_SYMBOL x st).2 = st := by
  unfold CHECK_SYMBOL; split <;> rfl

theorem CHECK_STRING_state (x : Lisp_Object) (st : State) : (CHECK_STRING x st).2 = st := by
  unfold CHECK_STRING; split <;> rfl

theorem strcpy_1024_state (src : Option String) (st : State) :
    (strcpy_1024 src st).2 = st := by
  unfold strcpy_1024
  split
  · rfl
  · split <;> rfl

theorem XD_ERROR_state {α : Type} (message : String) (st : State) :
    ((XD_ERROR message : XD α) st).2 = st ∧ ∀ x, ((XD_ERROR message : XD α) st).1 ≠ .ok x := by
  by_cases h : (c_string message).length < 1024 <;>
    simp [XD_ERROR, strcpy_1024, h, xsignal1, undefined_behaviour]

/-- A step that keeps the state, followed by code that keeps it, keeps the state. -/
theorem bind_state {α β : Type} (m : XD α) (f : α → XD β) (st : State)
    (hm : (m st).2 = st) (hf : ∀ a, (f a st).2 = st) : ((m >>= f) st).2 = st := by
  simp only [XD_bind_apply]
  rcases hms : m st with ⟨r, st1⟩
  rw [hms] at hm
  simp only at hm
  subst hm
  cases r with
  | ok a => exact hf a
  | signal e d => rfl
  | undefined => rfl

/-- A step that keeps the state, followed by code that never ends normally from
this state and keeps it, never ends normally and keeps the state. -/
theorem bind_never_ok {α β : Type} (m : XD α) (f : α → XD β) (st : State)
    (hm : (m st).2 = st)
    (hf : ∀ a, (∀ x, (f a st).1 ≠ .ok x) ∧ (f a st).2 = st) :
    (∀ x, ((m >>= f) st).1 ≠ .ok x) ∧ ((m >>= f) st).2 = st := by
  simp only [XD_bind_apply]
  rcases hms : m st with ⟨r, st1⟩
  rw [hms] at hm
  simp only at hm
  subst hm
  cases r with
  | ok a => exact hf a
  | signal e d => exact ⟨fun x => by simp, rfl⟩
  | undefined => exact ⟨fun x => by simp, rfl⟩

theorem xd_initialize_state (E : DBusEnv) (bus : Lisp_Object) (st : State) :
    ( xd_initialize E bus st).2 = st := by
  unfold xd_initialize
  refine bind_state _ _ _ (CHECK_SYMBOL_state _ _) fun _ => ?_
  split
  · rfl
  · dsimp only
    generalize E.dbus_bus_get _ = r
    cases r with
    | error message => exact (XD_ERROR_state _ _).1
    | null => rfl
    | connection => rfl

/-- The first argument of invalid type splits the argument list. -/
theorem first_invalid_split (args : List Lisp_Object)
    (hbad : ∃ v ∈ args, XD_LISP_OBJECT_TO_DBUS_TYPE v = DBUS_TYPE_INVALID) :
    ∃ pre v post, args = pre ++ v :: post ∧
      (∀ a ∈ pre, XD_LISP_OBJECT_TO_DBUS_TYPE a ≠ DBUS_TYPE_INVALID) ∧
      XD_LISP_OBJECT_TO_DBUS_TYPE v = DBUS_TYPE_INVALID := by
  induction args with
  | nil => simp at hbad
  | cons a args ih =>
    by_cases ha : XD_LISP_OBJECT_TO_DBUS_TYPE a = DBUS_TYPE_INVALID
    · exact ⟨[], a, args, rfl, by simp, ha⟩
    · obtain ⟨v, hv, hvt⟩ := hbad
      rcases List.mem_cons.mp hv with rfl | hv
      · exact absurd hvt ha
      · obtain ⟨pre, w, post, rfl, hpre, hw⟩ := ih ⟨v, hv, hvt⟩
        refine ⟨a :: pre, w, post, rfl, ?_, hw⟩
        intro b hb
        rcases List.mem_cons.mp hb with rfl | hb
        · exact ha
        · exact hpre b hb

/-- Code after a step that signals is not run. -/
theorem bind_of_signal {α β : Type} (m : XD α) (f : α → XD β) (st : State)
    (hm : (m st).2 = st) (hs : ∃ e d, (m st).1 = .signal e d) :
    (∀ x, ((m >>= f) st).1 ≠ .ok x) ∧ ((m >>= f) st).2 = st := by
  simp only [XD_bind_apply]
  rcases hms : m st with ⟨r, st1⟩
  rw [hms] at hm hs
  simp only at hm hs
  subst hm
  obtain ⟨e, d, rfl⟩ := hs
  exact ⟨fun x => by simp, rfl⟩

/-- With an argument of invalid type `Fdbus_call_method` never ends normally and
leaves the state, with the record of written messages, as it is. -/
theorem call_method_never_sends (P : Platform) (E : DBusEnv)
    (bus member service path interface : Lisp_Object) (args : List Lisp_Object) (st : State)
    (hbad : ∃ v ∈ args, XD_LISP_OBJECT_TO_DBUS_TYPE v = DBUS_TYPE_INVALID) :
    (∀ x, (Fdbus_call_method P E bus member service path interface args st).1 ≠ .ok x) ∧
    (Fdbus_call_method P E bus member service path interface args st).2 = st := by
  unfold Fdbus_call_method
  refine bind_never_ok _ _ _ (CHECK_SYMBOL_state _ _) fun _ => ?_
  refine bind_never_ok _ _ _ (CHECK_STRING_state _ _) fun _ => ?_
  refine bind_never_ok _ _ _ (CHECK_STRING_state _ _) fun _ => ?_
  refine bind_never_ok _ _ _ (CHECK_STRING_state _ _) fun _ => ?_
  refine bind_never_ok _ _ _ (CHECK_STRING_state _ _) fun _ => ?_
  refine bind_never_ok _ _ _ (xd_initialize_state _ _ _) fun connection => ?_
  split
  · exact ⟨fun x => by simp [xsignal1], rfl⟩
  · exact bind_of_signal _ _ _ (xd_append_parameters_state P E args _ st).1
      ((xd_append_parameters_state P E args _ st).2 hbad)

/-- With an argument of invalid type `Fdbus_send_signal` never ends normally and
leaves the state, with the record of written messages, as it is. -/
theorem send_signal_never_sends (P : Platform) (E : DBusEnv)
    (bus signal service path interface : Lisp_Object) (args : List Lisp_Object) (st : State)
    (hbad : ∃ v ∈ args, XD_LISP_OBJECT_TO_DBUS_TYPE v = DBUS_TYPE_INVALID) :
    (∀ x, (Fdbus_send_signal P E bus signal service path interface args st).1 ≠ .ok x) ∧
    (Fdbus_send_signal P E bus signal service path interface args st).2 = st := by
  unfold Fdbus_send_signal
  refine bind_never_ok _ _ _ (CHECK_SYMBOL_state _ _) fun _ => ?_
  refine bind_never_ok _ _ _ (CHECK_STRING_state _ _) fun _ => ?_
  refine bind_never_ok _ _ _ (CHECK_STRING_state _ _) fun _ => ?_
  refine bind_never_ok _ _ _ (CHECK_STRING_state _ _) fun _ => ?_
  refine bind_never_ok _ _ _ (CHECK_STRING_state _ _) fun _ => ?_
  refine bind_never_ok _ _ _ (xd_initialize_state _ _ _) fun connection => ?_
  split
  · exact ⟨fun x => by simp [xsignal1], rfl⟩
  · exact bind_of_signal _ _ _ (xd_append_parameters_state P E args _ st).1
      ((xd_append_parameters_state P E args _ st).2 hbad)

/-- C5: when at least one argument of `dbus-call-method` or `dbus-send-signal` has
no wire type, the operation does not end normally and the state is the one before
the call, so on both buses the record of messages handed to the transport is
unchanged, wherever the bad argument stands; and when the required arguments are
well typed and the libdbus side is healthy, the exit is the argument-type error:
`dbus-error` with the data `("Not a valid argument" v)` for the first argument `v`
without a wire type. -/
theorem C5_atomic_failure (P : Platform) (E : DBusEnv)
    (bus member service path interface : Lisp_Object) (args : List Lisp_Object) (st : State)
    (hbad : ∃ v ∈ args, XD_LISP_OBJECT_TO_DBUS_TYPE v = DBUS_TYPE_INVALID) :
    ((∀ x, (Fdbus_call_method P E bus member service path interface args st).1 ≠ .ok x) ∧
      (Fdbus_call_method P E bus member service path interface args st).2 = st ∧
      ∀ t, ((Fdbus_call_method P E bus member service path interface args st).2.connection
        t).written = (st.connection t).written) ∧
    ((∀ x, (Fdbus_send_signal P E bus member service path interface args st).1 ≠ .ok x) ∧
      (Fdbus_send_signal P E bus member service path interface args st).2 = st ∧
      ∀ t, ((Fdbus_send_signal P E bus member service path interface args st).2.connection
        t).written = (st.connection t).written) ∧
    (E.healthy → (bus = Qdbus_system_bus ∨ bus = Qdbus_session_bus) →
      STRINGP member = true → STRINGP service = true → STRINGP path = true →
      STRINGP interface = true →
      ∃ pre v post, args = pre ++ v :: post ∧
        (∀ a ∈ pre, XD_LISP_OBJECT_TO_DBUS_TYPE a ≠ DBUS_TYPE_INVALID) ∧
        XD_LISP_OBJECT_TO_DBUS_TYPE v = DBUS_TYPE_INVALID ∧
        Fdbus_call_method P E bus member service path interface args st =
          (.signal Qdbus_error (lisp_list [build_string "Not a valid argument", v]), st) ∧
        Fdbus_send_signal P E bus member service path interface args st =
          (.signal Qdbus_error (lisp_list [build_string "Not a valid argument", v]), st)) := by
  have hc := call_method_never_sends P E bus member service path interface args st hbad
  have hs := send_signal_never_sends P E bus member service path interface args st hbad
  refine ⟨⟨hc.1, hc.2, fun t => by rw [hc.2]⟩, ⟨hs.1, hs.2, fun t => by rw [hs.2]⟩, ?_⟩
  intro hE hbus hm hsv hp hi
  obtain ⟨pre, v, post, rfl, hpre, hv⟩ := first_invalid_split args hbad
  exact ⟨pre, v, post, rfl, hpre, hv,
    call_method_invalid_argument P E hE bus member service path interface hbus hm hsv hp hi
      pre v post hpre hv st,
    send_signal_invalid_argument P E hE bus member service path interface hbus hm hsv hp hi
      pre v post hpre hv st⟩

/-- Witness of C5: the call with the arguments 42 and the list (1) writes nothing. -/
theorem C5_atomic_failure_witness :
    (∃ v ∈ [int 42, cons (int 1) Qnil], XD_LISP_OBJECT_TO_DBUS_TYPE v = DBUS_TYPE_INVALID) ∧
    (Fdbus_call_method P64 example_env Qdbus_session_bus (string "M") (string "org.s")
      (string "/p") (string "org.i") [int 42, cons (int 1) Qnil] example_state).2
      = example_state :=
  ⟨⟨cons (int 1) Qnil, by simp, by decide⟩,
   (C5_atomic_failure P64 example_env Qdbus_session_bus (string "M") (string "org.s")
      (string "/p") (string "org.i") [int 42, cons (int 1) Qnil] example_state
      ⟨cons (int 1) Qnil, by simp, by decide⟩).1.2.1⟩

/-! ## Lemmas on C strings, the obarray and the symbol heap -/

theorem c_string_data (s : String) :
    (c_string s).data = s.data.takeWhile (fun c => c != Char.ofNat 0) := rfl

theorem takeWhile_append_of_all {α : Type} (p : α → Bool) (xs ys : List α)
    (h : ∀ x ∈ xs, p x = true) : (xs ++ ys).takeWhile p = xs ++ ys.takeWhile p := by
  induction xs with
  | nil => rfl
  | cons x xs ih =>
    have hx : p x = true := h x (by simp)
    simp [List.takeWhile, hx, ih (fun y hy => h y (by simp [hy]))]

theorem takeWhile_all {α : Type} (p : α → Bool) (xs : List α) :
    ∀ x ∈ xs.takeWhile p, p x = true := by
  induction xs with
  | nil => simp
  | cons x xs ih =>
    by_cases hx : p x = true
    · simp only [List.takeWhile, hx]
      intro y hy
      rcases List.mem_cons.mp hy with rfl | hy
      · exact hx
      · exact ih y hy
    · simp [List.takeWhile, hx]

theorem takeWhile_of_all {α : Type} (p : α → Bool) (xs : List α)
    (h : ∀ x ∈ xs, p x = true) : xs.takeWhile p = xs := by
  have := takeWhile_append_of_all p xs [] h
  simpa using this

/-- Reading a C string twice changes nothing. -/
theorem c_string_idem (s : String) : c_string (c_string s) = c_string s := by
  apply String.ext
  rw [c_string_data, c_string_data]
  exact takeWhile_of_all _ _ (takeWhile_all _ _)

/-- The text of a dispatch key holds no NUL, so it is a C string as it stands. -/
theorem c_string_dispatch_key_text (name interface member : String) :
    c_string (dispatch_key_text name interface member) =
      dispatch_key_text name interface member := by
  apply String.ext
  rw [c_string_data]
  apply takeWhile_of_all
  intro x hx
  simp only [dispatch_key_text, String.data_append, List.mem_append, c_string_data] at hx
  rcases hx with (((hx | hx) | hx) | hx) | hx
  · exact takeWhile_all _ _ x hx
  · have : x = Char.ofNat 46 := by simpa using hx
    subst this; decide
  · exact takeWhile_all _ _ x hx
  · have : x = Char.ofNat 46 := by simpa using hx
    subst this; decide
  · exact takeWhile_all _ _ x hx

/-- The text of a dispatch key reads its three parts as C strings. -/
theorem dispatch_key_text_c_string (name interface member : String) :
    dispatch_key_text name (c_string interface) (c_string member) =
      dispatch_key_text name interface member := by
  simp [dispatch_key_text, c_string_idem]

theorem dispatch_key_text_length (name interface member : String) :
    (dispatch_key_text name interface member).length =
      (c_string name).length + 1 + (c_string interface).length + 1 + (c_string member).length := by
  have h1 : (".": String).length = 1 := rfl
  simp [dispatch_key_text, String.length_append, h1]

/-! ## Inversion of the steps of `Fdbus_register_signal` -/

theorem bind_eq_ok {α β : Type} (m : XD α) (f : α → XD β) (st st1 : State) (b : β) :
    (m >>= f) st = (.ok b, st1) ↔ ∃ a s, m st = (.ok a, s) ∧ f a s = (.ok b, st1) := by
  simp only [XD_bind_apply]
  rcases hms : m st with ⟨r, s⟩
  cases r with
  | ok a =>
    constructor
    · intro h; exact ⟨a, s, rfl, h⟩
    · rintro ⟨a1, s1, h1, h⟩
      simp only [Prod.mk.injEq, Exit.ok.injEq] at h1
      obtain ⟨rfl, rfl⟩ := h1
      exact h
  | signal e d => simp
  | undefined => simp

theorem CHECK_SYMBOL_eq_ok (x : Lisp_Object) (st s : State) (a : Unit) :
    CHECK_SYMBOL x st = (.ok a, s) ↔ SYMBOLP x = true ∧ s = st := by
  by_cases h : SYMBOLP x = true
  · simp only [CHECK_SYMBOL, h, if_true, XD_pure_apply, Prod.mk.injEq, true_and]
    exact eq_comm
  · simp [CHECK_SYMBOL, h, xsignal2]

theorem CHECK_STRING_eq_ok (x : Lisp_Object) (st s : State) (a : Unit) :
    CHECK_STRING x st = (.ok a, s) ↔ STRINGP x = true ∧ s = st := by
  by_cases h : STRINGP x = true
  · simp only [CHECK_STRING, h, if_true, XD_pure_apply, Prod.mk.injEq, true_and]
    exact eq_comm
  · simp [CHECK_STRING, h, xsignal2]

theorem strcpy_1024_eq_ok (src : Option String) (st s : State) (a : String) :
    strcpy_1024 src st = (.ok a, s) ↔
      ∃ t, src = some t ∧ (c_string t).length < 1024 ∧ a = c_string t ∧ s = st := by
  unfold strcpy_1024
  cases src with
  | none => simp [undefined_behaviour]
  | some t =>
    by_cases h : (c_string t).length < 1024
    · simp only [h, if_true, XD_pure_apply, Prod.mk.injEq, Exit.ok.injEq, Option.some.injEq,
        exists_eq_left', true_and]
      exact ⟨fun h1 => ⟨h1.1.symm, h1.2.symm⟩, fun h1 => ⟨h1.1.symm, h1.2.symm⟩⟩
    · simp [h, undefined_behaviour]

theorem XD_ERROR_ne_ok {α : Type} (message : String) (st s : State) (a : α) :
    (XD_ERROR message : XD α) st ≠ (.ok a, s) := by
  intro h
  exact (XD_ERROR_state (α := α) message st).2 a (by rw [h])

theorem xd_initialize_eq_ok (E : DBusEnv) (bus : Lisp_Object) (st s : State)
    (c : DBusBusType) :
    xd_initialize E bus st = (.ok c, s) ↔
      s = st ∧ E.dbus_bus_get c = .connection ∧
      (bus = Qdbus_system_bus ∧ c = DBUS_BUS_SYSTEM ∨
        bus = Qdbus_session_bus ∧ c = DBUS_BUS_SESSION) := by
  unfold xd_initialize
  rw [bind_eq_ok]
  simp only [CHECK_SYMBOL_eq_ok]
  constructor
  · rintro ⟨_, s1, ⟨hsym, rfl⟩, h⟩
    by_cases hsys : bus = Qdbus_system_bus
    · subst hsys
      simp only [EQ, beq_self_eq_true, Bool.true_or, Bool.not_true, Bool.false_eq_true,
        if_false, if_true] at h
      cases hget : E.dbus_bus_get DBUS_BUS_SYSTEM with
      | error message => rw [hget] at h; exact absurd h (XD_ERROR_ne_ok _ _ _ _)
      | null => rw [hget] at h; simp [xsignal2] at h
      | connection =>
        rw [hget] at h
        simp only [XD_pure_apply, Prod.mk.injEq, Exit.ok.injEq] at h
        obtain ⟨rfl, rfl⟩ := h
        exact ⟨rfl, hget, Or.inl ⟨rfl, rfl⟩⟩
    · by_cases hses : bus = Qdbus_session_bus
      · subst hses
        have hne : EQ Qdbus_session_bus Qdbus_system_bus = false := by decide
        simp only [EQ, beq_self_eq_true, Bool.or_true, Bool.not_true, Bool.false_eq_true,
          if_false] at h
        have hne2 : (Qdbus_session_bus == Qdbus_system_bus) = false := by decide
        simp only [hne2, Bool.false_eq_true, if_false] at h
        cases hget : E.dbus_bus_get DBUS_BUS_SESSION with
        | error message => rw [hget] at h; exact absurd h (XD_ERROR_ne_ok _ _ _ _)
        | null => rw [hget] at h; simp [xsignal2] at h
        | connection =>
          rw [hget] at h
          simp only [XD_pure_apply, Prod.mk.injEq, Exit.ok.injEq] at h
          obtain ⟨rfl, rfl⟩ := h
          exact ⟨rfl, hget, Or.inr ⟨rfl, rfl⟩⟩
      · have h1 : EQ bus Qdbus_system_bus = false := by simpa [EQ] using hsys
        have h2 : EQ bus Qdbus_session_bus = false := by simpa [EQ] using hses
        simp [h1, h2, xsignal2] at h
  · rintro ⟨rfl, hget, (⟨rfl, rfl⟩ | ⟨rfl, rfl⟩)⟩
    · refine ⟨(), s, ⟨rfl, rfl⟩, ?_⟩
      simp [EQ, hget]
    · refine ⟨(), s, ⟨rfl, rfl⟩, ?_⟩
      have hne2 : (Qdbus_session_bus == Qdbus_system_bus) = false := by decide
      simp [EQ, hget, hne2]

theorem Fintern_found (key : String) (k : Nat) (s : State)
    (h : oblookup s.Vdbus_intern_symbols key = some k) :
    Fintern (string key) s = (.ok (symbol k), s) := by
  simp [Fintern, SDATA, h]

theorem Fintern_new (key : String) (s : State)
    (h : oblookup s.Vdbus_intern_symbols key = none) :
    Fintern (string key) s =
      (.ok (symbol s.symbols.length),
       { s with
         symbols := s.symbols ++ [{ name := key, function := none }]
         Vdbus_intern_symbols := (key, s.symbols.length) :: s.Vdbus_intern_symbols }) := by
  simp [Fintern, SDATA, h]

theorem XD_SYMBOL_INTERN_SYMBOL_eq_ok (bus i m K : Lisp_Object) (s s1 : State) :
    XD_SYMBOL_INTERN_SYMBOL bus i m s = (.ok K, s1) ↔
      ∃ name, SYMBOL_NAME s bus = some name ∧
        (dispatch_key_text name (SDATA i) (SDATA m)).length < 1024 ∧
        Fintern (string (dispatch_key_text name (SDATA i) (SDATA m))) s = (.ok K, s1) := by
  unfold XD_SYMBOL_INTERN_SYMBOL
  cases hname : SYMBOL_NAME s bus with
  | none => simp
  | some name =>
    simp only [bind_eq_ok, strcpy_1024_eq_ok]
    constructor
    · rintro ⟨a, s2, ⟨t, ht, hlen, rfl, rfl⟩, h⟩
      simp only [Option.some.injEq] at ht
      subst ht
      rw [c_string_dispatch_key_text] at hlen h
      rw [build_string, c_string_dispatch_key_text] at h
      exact ⟨name, rfl, hlen, h⟩
    · rintro ⟨n, hn, hlen, h⟩
      simp only [Option.some.injEq] at hn
      subst hn
      refine ⟨_, s, ⟨_, rfl, ?_, rfl, rfl⟩, ?_⟩
      · rw [c_string_dispatch_key_text]; exact hlen
      · rw [c_string_dispatch_key_text, build_string, c_string_dispatch_key_text]; exact h

theorem Fsymbol_function_eq_ok (sym f : Lisp_Object) (s s1 : State) :
    Fsymbol_function sym s = (.ok f, s1) ↔
      SYMBOLP sym = true ∧ symbol_function_cell s sym = some f ∧ s1 = s := by
  unfold Fsymbol_function
  simp only [bind_eq_ok, CHECK_SYMBOL_eq_ok]
  constructor
  · rintro ⟨_, s2, ⟨hsym, rfl⟩, h⟩
    cases hc : symbol_function_cell s2 sym with
    | none => simp [hc, xsignal1] at h
    | some g =>
      simp only [hc, Prod.mk.injEq, Exit.ok.injEq] at h
      obtain ⟨rfl, rfl⟩ := h
      exact ⟨hsym, rfl, rfl⟩
  · rintro ⟨hsym, hc, rfl⟩
    exact ⟨(), s1, ⟨hsym, rfl⟩, by simp [hc]⟩

theorem Ffset_eq_ok (K f g : Lisp_Object) (s s1 : State) :
    Ffset K f s = (.ok g, s1) ↔
      ∃ k, K = symbol k ∧ k ≠ 0 ∧ k ≠ 1 ∧ g = f ∧
        s1 = { s with
          symbols := List.modify (fun c => { c with function := some f }) k s.symbols } := by
  unfold Ffset
  simp only [bind_eq_ok, CHECK_SYMBOL_eq_ok]
  constructor
  · rintro ⟨_, s2, ⟨hsym, rfl⟩, h⟩
    cases K with
    | symbol k =>
      by_cases hk : k = 0 ∨ k = 1
      · rcases hk with rfl | rfl <;> simp [NILP, EQ, Qnil, Qt, xsignal1] at h
      · have h0 : k ≠ 0 := fun h0 => hk (Or.inl h0)
        have h1 : k ≠ 1 := fun h1 => hk (Or.inr h1)
        have hb : (symbol k == symbol 0 || symbol k == symbol 1) = false := by simp [h0, h1]
        simp only [NILP, EQ, Qnil, Qt, hb, Bool.false_eq_true, if_false, Prod.mk.injEq,
          Exit.ok.injEq] at h
        exact ⟨k, rfl, h0, h1, h.1.symm, h.2.symm⟩
    | _ => simp [SYMBOLP] at hsym
  · rintro ⟨k, rfl, h0, h1, rfl, rfl⟩
    refine ⟨(), s, ⟨rfl, rfl⟩, ?_⟩
    simp [NILP, EQ, Qnil, Qt, h0, h1]

/-- What a normal return of `Fdbus_register_signal` tells: the arguments are well
typed, the bus is reached, the rule is installed in the state `stA`, the key is
interned in `stA` giving `stB`, and the function `f` of the handler is stored. -/
theorem register_inv (E : DBusEnv) (bus signal service path interface handler K : Lisp_Object)
    (st st1 : State)
    (h : Fdbus_register_signal E bus signal service path interface handler st = (.ok K, st1)) :
    ∃ (c : DBusBusType) (stB : State) (f : Lisp_Object),
      (bus = Qdbus_system_bus ∧ c = DBUS_BUS_SYSTEM ∨
        bus = Qdbus_session_bus ∧ c = DBUS_BUS_SESSION) ∧
      E.dbus_bus_get c = .connection ∧
      XD_SYMBOL_INTERN_SYMBOL bus interface signal
        (st.set_connection c
          { st.connection c with
            match_rules := (st.connection c).match_rules ++
              [c_string (match_rule (c_string (SDATA interface)) (c_string (SDATA signal)))] })
        = (.ok K, stB) ∧
      SYMBOLP handler = true ∧
      symbol_function_cell stB handler = some f ∧
      Ffset K f stB = (.ok f, st1) := by
  unfold Fdbus_register_signal at h
  simp only [bind_eq_ok, CHECK_SYMBOL_eq_ok, CHECK_STRING_eq_ok, xd_initialize_eq_ok,
    strcpy_1024_eq_ok] at h
  obtain ⟨_, _, ⟨_, rfl⟩, _, _, ⟨_, rfl⟩, _, _, ⟨_, rfl⟩, _, _, ⟨_, rfl⟩, _, _, ⟨_, rfl⟩,
    _, _, ⟨hh, rfl⟩, c, _, ⟨rfl, hget, hbus⟩, rule, _, ⟨t, ht, _, rfl, rfl⟩, derror, sA, hadd,
    h⟩ := h
  simp only [Option.some.injEq] at ht
  subst ht
  unfold dbus_bus_add_match at hadd
  cases hm : E.dbus_bus_add_match c
      (c_string (match_rule (c_string (SDATA interface)) (c_string (SDATA signal)))) with
  | some message =>
    simp only [hm, Prod.mk.injEq, Exit.ok.injEq] at hadd
    obtain ⟨rfl, rfl⟩ := hadd
    exact absurd h (XD_ERROR_ne_ok _ _ _ _)
  | none =>
    simp only [hm, Prod.mk.injEq, Exit.ok.injEq] at hadd
    obtain ⟨rfl, rfl⟩ := hadd
    simp only [bind_eq_ok, Fsymbol_function_eq_ok, XD_pure_apply, Prod.mk.injEq,
      Exit.ok.injEq] at h
    obtain ⟨K1, stB, hintern, f, sC, ⟨_, hf, hsC⟩, g, s3, hfset, hK, hs3⟩ := h
    subst hsC hK hs3
    have hg := (Ffset_eq_ok K1 f g sC s3).mp hfset
    obtain ⟨k, _, _, _, hgf, _⟩ := hg
    subst hgf
    exact ⟨c, sC, g, hbus, hget, hintern, hh, hf, hfset⟩

@[simp] theorem set_connection_symbols (st : State) (c : DBusBusType) (x : DBusConnection) :
    (st.set_connection c x).symbols = st.symbols := by
  cases c <;> rfl

@[simp] theorem set_connection_obarray (st : State) (c : DBusBusType) (x : DBusConnection) :
    (st.set_connection c x).Vdbus_intern_symbols = st.Vdbus_intern_symbols := by
  cases c <;> rfl

@[simp] theorem set_connection_kbd_buffer (st : State) (c : DBusBusType) (x : DBusConnection) :
    (st.set_connection c x).kbd_buffer = st.kbd_buffer := by
  cases c <;> rfl

@[simp] theorem set_connection_same (st : State) (c : DBusBusType) (x : DBusConnection) :
    (st.set_connection c x).connection c = x := by
  cases c <;> rfl

theorem set_connection_other (st : State) (c d : DBusBusType) (x : DBusConnection)
    (h : d ≠ c) : (st.set_connection c x).connection d = st.connection d := by
  cases c <;> cases d <;> first | rfl | exact absurd rfl h

@[simp] theorem SYMBOL_NAME_set_connection (st : State) (c : DBusBusType) (x : DBusConnection)
    (y : Lisp_Object) : SYMBOL_NAME (st.set_connection c x) y = SYMBOL_NAME st y := by
  cases y <;> simp [SYMBOL_NAME]

@[simp] theorem connection_with_symbols (st : State) (x : List Lisp_Symbol)
    (d : DBusBusType) : ({ st with symbols := x } : State).connection d = st.connection d := by
  cases d <;> rfl

@[simp] theorem connection_with_symbols_obarray (st : State) (x : List Lisp_Symbol)
    (y : List (String × Nat)) (d : DBusBusType) :
    ({ st with symbols := x, Vdbus_intern_symbols := y } : State).connection d
      = st.connection d := by
  cases d <;> rfl

@[simp] theorem connection_with_obarray (st : State) (y : List (String × Nat))
    (d : DBusBusType) :
    ({ st with Vdbus_intern_symbols := y } : State).connection d = st.connection d := by
  cases d <;> rfl

@[simp] theorem connection_with_kbd_buffer (st : State) (y : List input_event)
    (d : DBusBusType) :
    ({ st with kbd_buffer := y } : State).connection d = st.connection d := by
  cases d <;> rfl

/-- The two ways in which `Fdbus_register_signal` returns normally: the key was
interned before, or it is interned now with a new symbol cell.  In both the rule is
added to the connection of the bus and nothing else changes but the function cell
of the key. -/
theorem register_cases (E : DBusEnv)
    (bus signal service path interface handler K : Lisp_Object) (st st1 : State)
    (h : Fdbus_register_signal E bus signal service path interface handler st = (.ok K, st1)) :
    ∃ (c : DBusBusType) (name : String) (f : Lisp_Object) (k : Nat),
      (bus = Qdbus_system_bus ∧ c = DBUS_BUS_SYSTEM ∨
        bus = Qdbus_session_bus ∧ c = DBUS_BUS_SESSION) ∧
      E.dbus_bus_get c = .connection ∧
      SYMBOL_NAME st bus = some name ∧
      (dispatch_key_text name (SDATA interface) (SDATA signal)).length < 1024 ∧
      SYMBOLP handler = true ∧
      symbol_function_cell st handler = some f ∧
      K = symbol k ∧ k ≠ 0 ∧ k ≠ 1 ∧
      st1.kbd_buffer = st.kbd_buffer ∧
      st1.connection c =
        { st.connection c with
          match_rules := (st.connection c).match_rules ++
            [c_string (match_rule (c_string (SDATA interface)) (c_string (SDATA signal)))] } ∧
      (∀ d, d ≠ c → st1.connection d = st.connection d) ∧
      ((oblookup st.Vdbus_intern_symbols
            (dispatch_key_text name (SDATA interface) (SDATA signal)) = some k ∧
          st1.symbols = List.modify (fun x => { x with function := some f }) k st.symbols ∧
          st1.Vdbus_intern_symbols = st.Vdbus_intern_symbols) ∨
        (oblookup st.Vdbus_intern_symbols
            (dispatch_key_text name (SDATA interface) (SDATA signal)) = none ∧
          k = st.symbols.length ∧
          st1.symbols =
            st.symbols ++
              [{ name := dispatch_key_text name (SDATA interface) (SDATA signal),
                 function := some f }] ∧
          st1.Vdbus_intern_symbols =
            (dispatch_key_text name (SDATA interface) (SDATA signal), k) ::
              st.Vdbus_intern_symbols)) := by
  obtain ⟨c, stB, f, hbus, hget, hintern, hh, hf, hfset⟩ := register_inv E bus signal service
    path interface handler K st st1 h
  obtain ⟨name, hname, hlen, hint⟩ := (XD_SYMBOL_INTERN_SYMBOL_eq_ok _ _ _ _ _ _).mp hintern
  obtain ⟨k, hK, h0, h1, _, hst1⟩ := (Ffset_eq_ok _ _ _ _ _).mp hfset
  rw [SYMBOL_NAME_set_connection] at hname
  cases hlook : oblookup st.Vdbus_intern_symbols
      (dispatch_key_text name (SDATA interface) (SDATA signal)) with
  | some k1 =>
    rw [Fintern_found _ k1 _ (by simpa using hlook)] at hint
    simp only [Prod.mk.injEq, Exit.ok.injEq] at hint
    obtain ⟨hK1, hsB⟩ := hint
    subst hsB
    rw [hK] at hK1
    cases hK1
    have hf1 : symbol_function_cell st handler = some f := by
      cases handler <;> simp_all [symbol_function_cell]
    refine ⟨c, name, f, k, hbus, hget, hname, hlen, hh, hf1, hK, h0, h1, ?_, ?_, ?_, ?_⟩
    · rw [hst1]; cases c <;> rfl
    · rw [hst1]; cases c <;> rfl
    · intro d hd; rw [hst1]; cases c <;> cases d <;> first | rfl | exact absurd rfl hd
    · left; rw [hst1]; exact ⟨hlook, by cases c <;> rfl, by cases c <;> rfl⟩
  | none =>
    rw [Fintern_new _ _ (by simpa using hlook)] at hint
    simp only [Prod.mk.injEq, Exit.ok.injEq, set_connection_symbols] at hint
    obtain ⟨hK1, hsB⟩ := hint
    subst hsB
    rw [hK] at hK1
    cases hK1
    have hf1 : symbol_function_cell st handler = some f := by
      cases handler with
      | symbol hid =>
        simp only [symbol_function_cell, set_connection_symbols] at hf ⊢
        by_cases hlt : hid < st.symbols.length
        · rw [List.getElem?_append_left hlt] at hf; exact hf
        · rw [List.getElem?_append_right (by omega)] at hf
          rcases Nat.eq_zero_or_pos (hid - st.symbols.length) with hz | hpos
          · simp [hz] at hf
          · obtain ⟨n, hn⟩ : ∃ n, hid - st.symbols.length = n + 1 := ⟨_, (Nat.succ_pred_eq_of_pos hpos).symm⟩
            rw [hn] at hf; simp at hf
      | _ => simp [SYMBOLP] at hh
    refine ⟨c, name, f, st.symbols.length, hbus, hget, hname, hlen, hh, hf1, hK, h0, h1,
      ?_, ?_, ?_, ?_⟩
    · rw [hst1]; cases c <;> rfl
    · rw [hst1]; cases c <;> rfl
    · intro d hd; rw [hst1]; cases c <;> cases d <;> first | rfl | exact absurd rfl hd
    · right
      rw [hst1]
      refine ⟨hlook, rfl, ?_, by cases c <;> rfl⟩
      show List.modify _ st.symbols.length (st.symbols ++ _) = _
      rw [List.modify_eq_take_drop]
      simp

theorem c_string_of_no_nul (s : String) (h : Char.ofNat 0 ∉ s.data) : c_string s = s := by
  apply String.ext
  rw [c_string_data]
  apply takeWhile_of_all
  intro x hx
  have : x ≠ Char.ofNat 0 := fun hx0 => h (hx0 ▸ hx)
  simpa using this

theorem name_getElem?_modify (l : List Lisp_Symbol) (g : Option Lisp_Object) (k id : Nat) :
    ((List.modify (fun x => { x with function := g }) k l)[id]?).map Lisp_Symbol.name =
      (l[id]?).map Lisp_Symbol.name := by
  rw [List.getElem?_modify]
  split <;> cases l[id]? <;> rfl

/-- A normal return of `Fdbus_register_signal` keeps the name of every symbol. -/
theorem register_keeps_names (E : DBusEnv)
    (bus signal service path interface handler K : Lisp_Object) (st st1 : State)
    (h : Fdbus_register_signal E bus signal service path interface handler st = (.ok K, st1))
    (x : Lisp_Object) (n : String) (hx : SYMBOL_NAME st x = some n) :
    SYMBOL_NAME st1 x = some n := by
  obtain ⟨c, name, f, k, -, -, -, -, -, -, -, -, -, -, -, -, hc⟩ :=
    register_cases E bus signal service path interface handler K st st1 h
  cases x with
  | symbol id =>
    simp only [SYMBOL_NAME] at hx ⊢
    rcases hc with ⟨-, hsym, -⟩ | ⟨-, -, hsym, -⟩
    · rw [hsym, name_getElem?_modify]; exact hx
    · rw [hsym]
      have hlt : id < st.symbols.length := by
        by_contra hge
        rw [List.getElem?_eq_none (by omega)] at hx
        simp at hx
      rw [List.getElem?_append_left hlt]; exact hx
  | _ => simp [SYMBOL_NAME] at hx

/-- After a normal return of `Fdbus_register_signal` the obarray holds the key under
the text assembled from the name of the bus, the interface and the signal. -/
theorem register_interns (E : DBusEnv)
    (bus signal service path interface handler K : Lisp_Object) (st st1 : State)
    (h : Fdbus_register_signal E bus signal service path interface handler st = (.ok K, st1)) :
    ∃ name k, SYMBOL_NAME st bus = some name ∧ SYMBOL_NAME st1 bus = some name ∧
      (dispatch_key_text name (SDATA interface) (SDATA signal)).length < 1024 ∧
      K = symbol k ∧
      oblookup st1.Vdbus_intern_symbols
        (dispatch_key_text name (SDATA interface) (SDATA signal)) = some k ∧
      (st.wf →
        SYMBOL_NAME st1 K = some (dispatch_key_text name (SDATA interface) (SDATA signal))) := by
  have hkeep := register_keeps_names E bus signal service path interface handler K st st1 h
  obtain ⟨c, name, f, k, -, -, hname, hlen, -, -, hK, -, -, -, -, -, hc⟩ :=
    register_cases E bus signal service path interface handler K st st1 h
  refine ⟨name, k, hname, hkeep bus name hname, hlen, hK, ?_, ?_⟩
  · rcases hc with ⟨hlook, -, hob⟩ | ⟨-, -, -, hob⟩
    · rw [hob]; exact hlook
    · rw [hob]; simp [oblookup, List.lookup]
  · intro hwf
    subst hK
    rcases hc with ⟨hlook, -, -⟩ | ⟨-, hk, hsym, -⟩
    · exact hkeep _ _ (hwf _ _ hlook)
    · simp [SYMBOL_NAME, hsym, hk]

/-- The pump code of lines 636 to 644 interns the text of the dispatch key when the
strings fit their buffers. -/
theorem xd_read_message_symbol_eq (bus : Lisp_Object) (dmessage : DBusMessage) (s : State)
    (name i m : String) (hname : SYMBOL_NAME s bus = some name)
    (hi : dmessage.interface = some i) (hm : dmessage.member = some m)
    (hlen : (dispatch_key_text name i m).length < 1024) :
    xd_read_message_symbol bus dmessage s = Fintern (string (dispatch_key_text name i m)) s := by
  have hlen1 := hlen
  rw [dispatch_key_text_length] at hlen1
  have hi1 : strcpy_1024 (some i) s = (.ok (c_string i), s) :=
    (strcpy_1024_eq_ok _ _ _ _).mpr ⟨_, rfl, by omega, rfl, rfl⟩
  have hm1 : strcpy_1024 (some m) s = (.ok (c_string m), s) :=
    (strcpy_1024_eq_ok _ _ _ _).mpr ⟨_, rfl, by omega, rfl, rfl⟩
  have htext : dispatch_key_text name (SDATA (build_string (c_string i)))
      (SDATA (build_string (c_string m))) = dispatch_key_text name i m := by
    simp only [build_string, SDATA, c_string_idem, dispatch_key_text_c_string]
  have hk : strcpy_1024 (some (dispatch_key_text name i m)) s
      = (.ok (dispatch_key_text name i m), s) :=
    (strcpy_1024_eq_ok _ _ _ _).mpr
      ⟨_, rfl, by rw [c_string_dispatch_key_text]; exact hlen,
        (c_string_dispatch_key_text _ _ _).symm, rfl⟩
  simp only [xd_read_message_symbol, hi, hm, XD_bind_apply, hi1, hm1, XD_SYMBOL_INTERN_SYMBOL,
    hname, htext, hk]
  rw [build_string, c_string_dispatch_key_text]

/-- In every state in which the obarray holds a key under the text of a bus, an
interface and a member, the pump code computes this key for a message with this
interface and member, and interns nothing. -/
theorem pump_finds_interned_key (bus : Lisp_Object) (dmessage : DBusMessage) (s : State)
    (name i m : String) (k : Nat) (hname : SYMBOL_NAME s bus = some name)
    (hi : dmessage.interface = some i) (hm : dmessage.member = some m)
    (hlen : (dispatch_key_text name i m).length < 1024)
    (hlook : oblookup s.Vdbus_intern_symbols (dispatch_key_text name i m) = some k) :
    xd_read_message_symbol bus dmessage s = (.ok (symbol k), s) := by
  rw [xd_read_message_symbol_eq bus dmessage s name i m hname hi hm hlen,
    Fintern_found _ _ _ hlook]

/-! ## C6: registration and the pump compute the same key -/

/-- C6: when `dbus-register-signal` returns the key `K` for a bus, an interface and a
signal, then for every incoming message whose interface and member are these
strings the pump code of `xd_read_message` (lines 636 to 644) computes the same
symbol `K`, found in the same obarray, and interns nothing new.  The obarray
holds `K` under the text made of the C strings of the name of the bus, of the
interface and of the member, joined by dots; this text is the name of `K` (in a
state whose obarray agrees with the symbol heap), and for strings without NUL it
is name(b) ++ "." ++ i ++ "." ++ m. -/
theorem C6_dispatch_key_determinism (E : DBusEnv)
    (bus signal service path interface handler K : Lisp_Object) (st st1 : State)
    (hreg : Fdbus_register_signal E bus signal service path interface handler st
      = (.ok K, st1))
    (dmessage : DBusMessage)
    (hi : dmessage.interface = some (SDATA interface))
    (hm : dmessage.member = some (SDATA signal)) :
    xd_read_message_symbol bus dmessage st1 = (.ok K, st1) ∧
    (bus = Qdbus_system_bus ∨ bus = Qdbus_session_bus) ∧
    ∃ name k, SYMBOL_NAME st1 bus = some name ∧ K = symbol k ∧
      oblookup st1.Vdbus_intern_symbols
        (dispatch_key_text name (SDATA interface) (SDATA signal)) = some k ∧
      (st.wf →
        SYMBOL_NAME st1 K = some (dispatch_key_text name (SDATA interface) (SDATA signal))) ∧
      (Char.ofNat 0 ∉ name.data → Char.ofNat 0 ∉ (SDATA interface).data →
        Char.ofNat 0 ∉ (SDATA signal).data →
        dispatch_key_text name (SDATA interface) (SDATA signal) =
          name ++ "." ++ SDATA interface ++ "." ++ SDATA signal) := by
  obtain ⟨name, k, -, hname1, hlen, hK, hlook, hwf⟩ :=
    register_interns E bus signal service path interface handler K st st1 hreg
  obtain ⟨c, -, -, -, hbus, -⟩ :=
    register_cases E bus signal service path interface handler K st st1 hreg
  have hbus1 : bus = Qdbus_system_bus ∨ bus = Qdbus_session_bus := by
    rcases hbus with ⟨h, -⟩ | ⟨h, -⟩
    · exact Or.inl h
    · exact Or.inr h
  refine ⟨?_, hbus1, name, k, hname1, hK, hlook, hwf, ?_⟩
  · rw [hK]
    exact pump_finds_interned_key bus dmessage st1 name _ _ k hname1 hi hm hlen hlook
  · intro h1 h2 h3
    simp only [dispatch_key_text, c_string_of_no_nul _ h1, c_string_of_no_nul _ h2,
      c_string_of_no_nul _ h3]

theorem example_state_wf : example_state.wf := by
  intro name k h
  simp [example_state, syms_of_dbusbind, oblookup, List.lookup] at h

/-- Witness of C6: registering `Tick` of `org.example.Iface` on the session bus returns
the symbol at pointer 11, named ":session.org.example.Iface.Tick", and the pump
computes this symbol for the message `example_message`. -/
theorem C6_dispatch_key_determinism_witness :
    Fdbus_register_signal example_env Qdbus_session_bus (string "Tick") (string "org.s")
      (string "/p") (string "org.example.Iface") (symbol 10) example_state
      = (.ok (symbol 11), example_registered) ∧
    xd_read_message_symbol Qdbus_session_bus example_message example_registered
      = (.ok (symbol 11), example_registered) ∧
    SYMBOL_NAME example_registered (symbol 11) = some ":session.org.example.Iface.Tick" :=
  ⟨rfl,
   (C6_dispatch_key_determinism example_env Qdbus_session_bus (string "Tick") (string "org.s")
      (string "/p") (string "org.example.Iface") (symbol 10) (symbol 11) example_state
      example_registered rfl example_message rfl rfl).1,
   by decide⟩

/-! ## C7: registering again overwrites the handler -/

theorem lookup_filter_self (l : List (String × Nat)) (key : String) :
    (l.filter (fun e => e.1 != key)).lookup key = none := by
  induction l with
  | nil => rfl
  | cons e l ih =>
    obtain ⟨n, k⟩ := e
    by_cases hn : n = key
    · have hb : ¬ ((fun e : String × Nat => e.1 != key) (n, k) = true) := by simp [hn]
      rw [@List.filter_cons_of_neg _ (fun e : String × Nat => e.1 != key) (n, k) l hb]; exact ih
    · have hb : (fun e : String × Nat => e.1 != key) (n, k) = true := by simp [hn]
      have hne : (key == n) = false := by simpa using fun h => hn h.symm
      rw [@List.filter_cons_of_pos _ (fun e : String × Nat => e.1 != key) (n, k) l hb]
      simp only [List.lookup, hne]
      exact ih

theorem lookup_filter_other (l : List (String × Nat)) (key n : String) (h : n ≠ key) :
    (l.filter (fun e => e.1 != key)).lookup n = l.lookup n := by
  induction l with
  | nil => rfl
  | cons e l ih =>
    obtain ⟨m, k⟩ := e
    by_cases hm : m = key
    · subst hm
      have hb : ¬ ((fun e : String × Nat => e.1 != m) (m, k) = true) := by simp
      have hne : (n == m) = false := by simpa using h
      rw [@List.filter_cons_of_neg _ (fun e : String × Nat => e.1 != m) (m, k) l hb]
      simp only [List.lookup, hne]
      exact ih
    · have hb : (fun e : String × Nat => e.1 != key) (m, k) = true := by simp [hm]
      rw [@List.filter_cons_of_pos _ (fun e : String × Nat => e.1 != key) (m, k) l hb]
      by_cases hnm : n = m
      · subst hnm
        simp [List.lookup]
      · have hne : (n == m) = false := by simpa using hnm
        simp only [List.lookup, hne]
        exact ih

theorem symbol_cell_of_name (st : State) (k : Nat) (n : String)
    (h : SYMBOL_NAME st (symbol k) = some n) : ∃ cell, st.symbols[k]? = some cell := by
  simp only [SYMBOL_NAME] at h
  cases hc : st.symbols[k]? with
  | none => rw [hc] at h; simp at h
  | some cell => exact ⟨cell, rfl⟩

/-- After a normal return of `Fdbus_register_signal` from a state whose obarray agrees
with the symbol heap, the key points to a cell whose function is the function of
the handler. -/
theorem register_binds (E : DBusEnv)
    (bus signal service path interface handler K : Lisp_Object) (st st1 : State)
    (h : Fdbus_register_signal E bus signal service path interface handler st = (.ok K, st1))
    (hwf : st.wf) :
    ∃ f, symbol_function_cell st handler = some f ∧ symbol_function_cell st1 K = some f := by
  obtain ⟨c, name, f, k, -, -, -, -, -, hf, hK, -, -, -, -, -, hc⟩ :=
    register_cases E bus signal service path interface handler K st st1 h
  refine ⟨f, hf, ?_⟩
  subst hK
  rcases hc with ⟨hlook, hsym, -⟩ | ⟨-, hk, hsym, -⟩
  · obtain ⟨cell, hcell⟩ := symbol_cell_of_name st k _ (hwf _ _ hlook)
    simp [symbol_function_cell, hsym, hcell]
  · simp [symbol_function_cell, hsym, hk]

/-- C7: two successive calls of `dbus-register-signal` with the same bus, interface
and signal (service and path may differ; they do not enter the key) and the
handlers `H1` then `H2` return the same key; afterwards the function cell of the
key holds the function of `H2`, the obarray is the one after the first call (one
entry for the key), and the function cell and the name of every other symbol
are unchanged.  The start state is one whose obarray agrees with the symbol
heap. -/
theorem C7_overwrite_law (E : DBusEnv)
    (bus signal interface service1 path1 H1 service2 path2 H2 K1 K2 : Lisp_Object)
    (st st1 st2 : State) (hwf : st.wf)
    (h1 : Fdbus_register_signal E bus signal service1 path1 interface H1 st = (.ok K1, st1))
    (h2 : Fdbus_register_signal E bus signal service2 path2 interface H2 st1 = (.ok K2, st2)) :
    K2 = K1 ∧
    (∃ f2, symbol_function_cell st1 H2 = some f2 ∧ symbol_function_cell st2 K1 = some f2) ∧
    st2.Vdbus_intern_symbols = st1.Vdbus_intern_symbols ∧
    (∀ x, x ≠ K1 → symbol_function_cell st2 x = symbol_function_cell st1 x) ∧
    (∀ x, SYMBOL_NAME st2 x = SYMBOL_NAME st1 x) := by
  obtain ⟨name, k, -, hname1, -, hK1, hlook1, hnameK⟩ :=
    register_interns E bus signal service1 path1 interface H1 K1 st st1 h1
  obtain ⟨c2, name2, f2, k2, -, -, hname2, -, -, hf2, hK2, -, -, -, -, -, hc2⟩ :=
    register_cases E bus signal service2 path2 interface H2 K2 st1 st2 h2
  have hn : name2 = name := by
    rw [hname1] at hname2; exact (Option.some.inj hname2).symm
  subst hn
  rcases hc2 with ⟨hlook2, hsym, hob⟩ | ⟨hlook2, -, -, -⟩
  · have hk : k2 = k := by rw [hlook1] at hlook2; exact (Option.some.inj hlook2).symm
    subst hk
    obtain ⟨cell, hcell⟩ := symbol_cell_of_name st1 k2 _ (by rw [← hK1]; exact hnameK hwf)
    refine ⟨by rw [hK1, hK2], ⟨f2, hf2, ?_⟩, hob, ?_, ?_⟩
    · rw [hK1]; simp [symbol_function_cell, hsym, hcell]
    · intro x hx
      cases x with
      | symbol id =>
        have hid : k2 ≠ id := fun hh => hx (by rw [hK1, hh])
        simp [symbol_function_cell, hsym, List.getElem?_modify_ne _ _ hid]
      | _ => rfl
    · intro x
      cases x with
      | symbol id => simp only [SYMBOL_NAME, hsym, name_getElem?_modify]
      | _ => rfl
  · rw [hlook1] at hlook2; exact absurd hlook2 (by simp)

/-- Witness of C7: `my-handler` and then `stringp` are registered for the same signal
in `example_state`; the key is the symbol at pointer 11 both times and its
function cell ends up with the function of `stringp`. -/
theorem C7_overwrite_law_witness :
    example_state.wf ∧
    Fdbus_register_signal example_env Qdbus_session_bus (string "Tick") (string "org.s")
      (string "/p") (string "org.example.Iface") (symbol 10) example_state
      = (.ok (symbol 11), example_registered) ∧
    Fdbus_register_signal example_env Qdbus_session_bus (string "Tick") (string "org.t")
      (string "/q") (string "org.example.Iface") Qstringp example_registered
      = (.ok (symbol 11), example_registered_twice) ∧
    symbol_function_cell example_registered (symbol 11) = some (vectorlike 7) ∧
    symbol_function_cell example_registered_twice (symbol 11) = some (vectorlike 1) ∧
    ∃ f2, symbol_function_cell example_registered Qstringp = some f2 ∧
      symbol_function_cell example_registered_twice (symbol 11) = some f2 :=
  ⟨example_state_wf, rfl, rfl, by decide, by decide,
   (C7_overwrite_law example_env Qdbus_session_bus (string "Tick") (string "org.example.Iface")
      (string "org.s") (string "/p") (symbol 10) (string "org.t") (string "/q") Qstringp
      (symbol 11) (symbol 11) example_state example_registered example_registered_twice
      example_state_wf rfl rfl).2.1⟩

/-! ## C8: the event that the pump stores -/

theorem Fintern_is_ok (x : Lisp_Object) (s : State) :
    ∃ k s1, Fintern x s = (.ok (symbol k), s1) ∧ s1.kbd_buffer = s.kbd_buffer ∧
      ∀ d, s1.connection d = s.connection d := by
  unfold Fintern
  cases oblookup s.Vdbus_intern_symbols (SDATA x) with
  | some k => exact ⟨k, s, rfl, rfl, fun _ => rfl⟩
  | none => exact ⟨_, _, rfl, rfl, fun d => by simp⟩

/-- The event of `xd_read_message` for a pending message whose sender, path, interface
and member are present and fit the buffers `s1`, `s2` and `s`: the message is
popped and exactly one event is put at the end of the queue, whose argument list
is the key, the sender, the path and the decoded arguments in wire order. -/
theorem xd_read_message_event (P : Platform) (E : DBusEnv) (bus : Lisp_Object)
    (c : DBusBusType) (st : State) (dmessage : DBusMessage) (rest : List DBusMessage)
    (name s p i m : String)
    (hbus : bus = Qdbus_system_bus ∧ c = DBUS_BUS_SYSTEM ∨
      bus = Qdbus_session_bus ∧ c = DBUS_BUS_SESSION)
    (hget : E.dbus_bus_get c = .connection)
    (hq : (st.connection c).incoming = dmessage :: rest)
    (hinit : dbus_message_iter_init dmessage = true)
    (hs : dmessage.sender = some s) (hp : dmessage.path = some p)
    (hi : dmessage.interface = some i) (hm : dmessage.member = some m)
    (hname : SYMBOL_NAME st bus = some name)
    (hslen : (c_string s).length < 1024) (hplen : (c_string p).length < 1024)
    (hklen : (dispatch_key_text name i m).length < 1024) :
    ∃ K st1,
      Fintern (string (dispatch_key_text name i m))
        (st.set_connection c { st.connection c with incoming := rest }) = (.ok K, st1) ∧
      xd_read_message P E bus st =
        (.ok (),
         { st1 with
           kbd_buffer := st.kbd_buffer ++
             [{ frame_or_window := Qnil,
                arg := lisp_list (K :: build_string s :: build_string p ::
                  dmessage.args.map (xd_retrieve_arg P)) }] }) := by
  obtain ⟨k, st1, hF, hkbd, -⟩ := Fintern_is_ok (string (dispatch_key_text name i m))
    (st.set_connection c { st.connection c with incoming := rest })
  refine ⟨symbol k, st1, hF, ?_⟩
  have h0 : xd_initialize E bus st = (.ok c, st) :=
    (xd_initialize_eq_ok E bus st st c).mpr ⟨rfl, hget, hbus⟩
  have hpop : dbus_connection_pop_message c st =
      (.ok (some dmessage), st.set_connection c { st.connection c with incoming := rest }) := by
    simp [dbus_connection_pop_message, hq]
  have hs1 : ∀ z : State, strcpy_1024 (some p) z = (.ok (c_string p), z) := fun z =>
    (strcpy_1024_eq_ok _ _ _ _).mpr ⟨_, rfl, hplen, rfl, rfl⟩
  have hs2 : ∀ z : State, strcpy_1024 (some s) z = (.ok (c_string s), z) := fun z =>
    (strcpy_1024_eq_ok _ _ _ _).mpr ⟨_, rfl, hslen, rfl, rfl⟩
  have hsym := xd_read_message_symbol_eq bus dmessage
    (st.set_connection c { st.connection c with incoming := rest }) name i m
    (by simpa using hname) hi hm hklen
  simp only [set_connection_kbd_buffer] at hkbd
  simp only [xd_read_message, XD_bind_apply, h0, hpop, hinit, Bool.not_true,
    Bool.false_eq_true, if_false, hp, hs, hs1, hs2, hsym, hF, kbd_buffer_store_event,
    decode_fields_eq, Fcons, build_string, c_string_idem, hkbd, lisp_list]

/-- Registration and pump together: after `dbus-register-signal` has returned the key
`K`, a pending message of the bus with the registered interface and member,
whose sender and path fit the buffers, is turned into exactly one event, which
starts with `K`, the sender and the path and goes on with the decoded arguments;
the message is taken off the queue. -/
theorem registered_signal_event (P : Platform) (E : DBusEnv)
    (bus signal service path interface handler K : Lisp_Object) (st st1 : State)
    (hreg : Fdbus_register_signal E bus signal service path interface handler st
      = (.ok K, st1)) :
    ∃ c : DBusBusType,
      (bus = Qdbus_system_bus ∧ c = DBUS_BUS_SYSTEM ∨
        bus = Qdbus_session_bus ∧ c = DBUS_BUS_SESSION) ∧
      ∀ (dmessage : DBusMessage) (rest : List DBusMessage) (s p : String),
        (st1.connection c).incoming = dmessage :: rest →
        dbus_message_iter_init dmessage = true →
        dmessage.sender = some s → dmessage.path = some p →
        dmessage.interface = some (SDATA interface) → dmessage.member = some (SDATA signal) →
        (c_string s).length < 1024 → (c_string p).length < 1024 →
        xd_read_message P E bus st1 =
          (.ok (),
           { st1.set_connection c { st1.connection c with incoming := rest } with
             kbd_buffer := st1.kbd_buffer ++
               [{ frame_or_window := Qnil,
                  arg := lisp_list (K :: build_string s :: build_string p ::
                    dmessage.args.map (xd_retrieve_arg P)) }] }) := by
  obtain ⟨name, k, -, hname1, hlen, hK, hlook, -⟩ :=
    register_interns E bus signal service path interface handler K st st1 hreg
  obtain ⟨c, -, -, -, hbus, hget, -⟩ :=
    register_cases E bus signal service path interface handler K st st1 hreg
  refine ⟨c, hbus, ?_⟩
  intro dmessage rest s p hq hinit hs hp hi hm hslen hplen
  obtain ⟨K1, st2, hF, hread⟩ := xd_read_message_event P E bus c st1 dmessage rest name s p
    (SDATA interface) (SDATA signal) hbus hget hq hinit hs hp hi hm hname1 hslen hplen hlen
  rw [Fintern_found _ k _ (by simpa using hlook)] at hF
  simp only [Prod.mk.injEq, Exit.ok.injEq] at hF
  obtain ⟨hK1, hst2⟩ := hF
  rw [hread, ← hK1, ← hst2, hK]

set_option maxRecDepth 100000

/-- C8 (evaluation of the code on a message with a long object path): with the key
registered as in `example_registered`, the pending message `example_message` gives
one event with the argument list (key sender path 1 ("a" "b")); the same message
with an object path of 1024 bytes overruns `char s1[1024]` in
`strcpy (s1, dbus_message_get_path (dmessage))`: the exit is undefined behaviour
and no event is stored. -/
theorem C8_long_path_overruns_buffer :
    (xd_read_message P64 example_env Qdbus_session_bus (example_pending example_message)).1
      = .ok () ∧
    (xd_read_message P64 example_env Qdbus_session_bus
        (example_pending example_message)).2.kbd_buffer =
      [{ frame_or_window := Qnil,
         arg := lisp_list [symbol 11, string ":1.9", string "/p", int 1,
           lisp_list [string "a", string "b"]] }] ∧
    (xd_read_message P64 example_env Qdbus_session_bus
        (example_pending example_long_path_message)).1 = .undefined ∧
    (xd_read_message P64 example_env Qdbus_session_bus
        (example_pending example_long_path_message)).2.kbd_buffer = [] := by
  refine ⟨?_, ?_, ?_, ?_⟩ <;> rfl

/-! ## C9: unregistering removes the key and nothing else -/

/-- Unregistering a key that the obarray holds under the text of its bus, interface
and member (as it does from the registration on, until the key is unregistered):
the entry is deleted, the pump interns a new symbol with an unbound function cell
for a matching message, and nothing else changes. -/
theorem unregister_interned_key (bus : Lisp_Object) (st1 : State) (name i m : String)
    (k : Nat)
    (hname1 : SYMBOL_NAME st1 bus = some name)
    (hKname : SYMBOL_NAME st1 (symbol k) = some (dispatch_key_text name i m))
    (hlook : oblookup st1.Vdbus_intern_symbols (dispatch_key_text name i m) = some k)
    (hlen : (dispatch_key_text name i m).length < 1024) :
    ∃ st2 : State,
      Fdbus_unregister_signal (symbol k) st1 = (.ok Qnil, st2) ∧
      oblookup st2.Vdbus_intern_symbols (dispatch_key_text name i m) = none ∧
      (∀ n, n ≠ dispatch_key_text name i m →
        oblookup st2.Vdbus_intern_symbols n = oblookup st1.Vdbus_intern_symbols n) ∧
      st2.symbols = st1.symbols ∧
      st2.kbd_buffer = st1.kbd_buffer ∧
      (∀ d, st2.connection d = st1.connection d) ∧
      (∀ dmessage : DBusMessage, dmessage.interface = some i → dmessage.member = some m →
        ∃ K1 st3, xd_read_message_symbol bus dmessage st2 = (.ok K1, st3) ∧ K1 ≠ symbol k ∧
          symbol_function_cell st3 K1 = none) := by
  have hun : Fdbus_unregister_signal (symbol k) st1 =
      (.ok Qnil, { st1 with
        Vdbus_intern_symbols := st1.Vdbus_intern_symbols.filter
          (fun e => e.1 != dispatch_key_text name i m) }) := by
    simp [Fdbus_unregister_signal, CHECK_SYMBOL, SYMBOLP, Funintern, hKname, hlook, EQ]
  refine ⟨_, hun, ?_, ?_, rfl, rfl, ?_, ?_⟩
  · exact lookup_filter_self _ _
  · intro n hn; exact lookup_filter_other _ _ _ hn
  · intro d; simp
  · intro dmessage hi hm
    have hl : oblookup ({ st1 with
        Vdbus_intern_symbols := st1.Vdbus_intern_symbols.filter
          (fun e => e.1 != dispatch_key_text name i m) } : State).Vdbus_intern_symbols
        (dispatch_key_text name i m) = none :=
      lookup_filter_self _ _
    rw [xd_read_message_symbol_eq bus dmessage _ name _ _ (by exact hname1) hi hm hlen,
      Fintern_new _ _ hl]
    obtain ⟨cell, hcell⟩ := symbol_cell_of_name st1 k _ hKname
    have hklt : k < st1.symbols.length := by
      by_contra hge
      rw [List.getElem?_eq_none (by omega)] at hcell
      simp at hcell
    refine ⟨_, _, rfl, ?_, ?_⟩
    · intro heq
      simp only [symbol.injEq] at heq
      omega
    · simp [symbol_function_cell]

/-- C9: when `dbus-register-signal` has returned the key `K` (from a state whose
obarray agrees with the symbol heap), `dbus-unregister-signal` of `K` returns
`nil` and deletes the entry of `K` from the obarray: the text of the key is no
longer entered, and the pump, on a message with this interface and member, interns
a new symbol whose function cell is unbound.  The entries of all other
names, all symbol cells, the event queue and both connections are unchanged; in
particular the match rule added at registration is still installed. -/
theorem C9_unregister_gap (E : DBusEnv)
    (bus signal service path interface handler K : Lisp_Object) (st st1 : State)
    (hwf : st.wf)
    (hreg : Fdbus_register_signal E bus signal service path interface handler st
      = (.ok K, st1)) :
    ∃ (c : DBusBusType) (name : String) (st2 : State),
      (bus = Qdbus_system_bus ∧ c = DBUS_BUS_SYSTEM ∨
        bus = Qdbus_session_bus ∧ c = DBUS_BUS_SESSION) ∧
      SYMBOL_NAME st1 bus = some name ∧
      Fdbus_unregister_signal K st1 = (.ok Qnil, st2) ∧
      oblookup st2.Vdbus_intern_symbols
        (dispatch_key_text name (SDATA interface) (SDATA signal)) = none ∧
      (∀ n, n ≠ dispatch_key_text name (SDATA interface) (SDATA signal) →
        oblookup st2.Vdbus_intern_symbols n = oblookup st1.Vdbus_intern_symbols n) ∧
      st2.symbols = st1.symbols ∧
      st2.kbd_buffer = st1.kbd_buffer ∧
      (∀ d, st2.connection d = st1.connection d) ∧
      c_string (match_rule (c_string (SDATA interface)) (c_string (SDATA signal)))
        ∈ (st2.connection c).match_rules ∧
      (∀ dmessage : DBusMessage, dmessage.interface = some (SDATA interface) →
        dmessage.member = some (SDATA signal) →
        ∃ K1 st3, xd_read_message_symbol bus dmessage st2 = (.ok K1, st3) ∧ K1 ≠ K ∧
          symbol_function_cell st3 K1 = none) := by
  obtain ⟨name, k, -, hname1, hlen, hK, hlook, hnameK⟩ :=
    register_interns E bus signal service path interface handler K st st1 hreg
  obtain ⟨c, -, -, -, hbus, -, -, -, -, -, -, -, -, -, hconn, -, -⟩ :=
    register_cases E bus signal service path interface handler K st st1 hreg
  have hKname := hnameK hwf
  subst hK
  obtain ⟨st2, hun, hnone, hother, hsym, hkbd, hcon, hpump⟩ :=
    unregister_interned_key bus st1 name (SDATA interface) (SDATA signal) k hname1 hKname
      hlook hlen
  refine ⟨c, name, st2, hbus, hname1, hun, hnone, hother, hsym, hkbd, hcon, ?_, hpump⟩
  rw [hcon c, hconn]
  simp

/-- Witness of C9: after the registration of `example_registered` the key at pointer 11
is unregistered; the call returns `nil`, the obarray is empty again and the match
rule is still installed on the session bus. -/
theorem C9_unregister_gap_witness :
    example_state.wf ∧
    Fdbus_unregister_signal (symbol 11) example_registered =
      (.ok Qnil, { example_registered with Vdbus_intern_symbols := [] }) ∧
    example_registered.session_bus.match_rules =
      ["type=\x27signal\x27,interface=\x27org.example.Iface\x27,member=Tick"] ∧
    ∃ (c : DBusBusType) (name : String) (st2 : State),
      (Qdbus_session_bus = Qdbus_system_bus ∧ c = DBUS_BUS_SYSTEM ∨
        Qdbus_session_bus = Qdbus_session_bus ∧ c = DBUS_BUS_SESSION) ∧
      SYMBOL_NAME example_registered Qdbus_session_bus = some name ∧
      Fdbus_unregister_signal (symbol 11) example_registered = (.ok Qnil, st2) :=
  ⟨example_state_wf, rfl, rfl,
   match C9_unregister_gap example_env Qdbus_session_bus (string "Tick") (string "org.s")
      (string "/p") (string "org.example.Iface") (symbol 10) (symbol 11) example_state
      example_registered example_state_wf rfl with
   | ⟨c, name, st2, h1, h2, h3, _⟩ => ⟨c, name, st2, h1, h2, h3⟩⟩

/-! ## The invariant kept by registering and unregistering -/

/-- The state after `syms_of_dbusbind` has an empty obarray, which agrees with the
symbol heap. -/
theorem syms_of_dbusbind_wf : syms_of_dbusbind.wf := by
  intro name k h
  simp [syms_of_dbusbind, oblookup, List.lookup] at h

/-- A normal return of `Fdbus_register_signal` keeps the agreement of the obarray
with the symbol heap. -/
theorem register_keeps_wf (E : DBusEnv)
    (bus signal service path interface handler K : Lisp_Object) (st st1 : State)
    (h : Fdbus_register_signal E bus signal service path interface handler st = (.ok K, st1))
    (hwf : st.wf) : st1.wf := by
  have hkeep := register_keeps_names E bus signal service path interface handler K st st1 h
  obtain ⟨c, name, f, k, -, -, -, -, -, -, -, -, -, -, -, -, hc⟩ :=
    register_cases E bus signal service path interface handler K st st1 h
  intro n j hj
  rcases hc with ⟨-, -, hob⟩ | ⟨-, hk, hsym, hob⟩
  · rw [hob] at hj
    exact hkeep _ _ (hwf n j hj)
  · rw [hob] at hj
    simp only [oblookup, List.lookup] at hj
    by_cases hn : n = dispatch_key_text name (SDATA interface) (SDATA signal)
    · subst hn
      simp only [beq_self_eq_true, Option.some.injEq] at hj
      subst hj
      simp [SYMBOL_NAME, hsym, hk]
    · have hne : (n == dispatch_key_text name (SDATA interface) (SDATA signal)) = false := by
        simpa using hn
      simp only [hne] at hj
      exact hkeep _ _ (hwf n j hj)

/-- The function `Fdbus_unregister_signal` keeps the agreement of the obarray with the
symbol heap. -/
theorem unregister_keeps_wf (object r : Lisp_Object) (st st1 : State)
    (h : Fdbus_unregister_signal object st = (.ok r, st1)) (hwf : st.wf) : st1.wf := by
  unfold Fdbus_unregister_signal at h
  simp only [bind_eq_ok, CHECK_SYMBOL_eq_ok, XD_pure_apply, Prod.mk.injEq, Exit.ok.injEq] at h
  obtain ⟨_, s, ⟨-, hs⟩, v, s2, hun, -, hs2⟩ := h
  subst hs hs2
  unfold Funintern at hun
  cases hname : SYMBOL_NAME s object with
  | none => simp [hname] at hun
  | some str =>
    simp only [hname] at hun
    cases hlook : oblookup s.Vdbus_intern_symbols str with
    | none =>
      simp only [hlook, Prod.mk.injEq, Exit.ok.injEq] at hun
      rw [← hun.2]; exact hwf
    | some tem =>
      simp only [hlook] at hun
      by_cases heq : EQ object (symbol tem) = true
      · simp only [heq, if_true, Prod.mk.injEq, Exit.ok.injEq] at hun
        rw [← hun.2]
        intro n j hj
        by_cases hn : n = str
        · subst hn
          simp only [oblookup] at hj
          rw [lookup_filter_self] at hj
          simp at hj
        · simp only [oblookup] at hj
          rw [lookup_filter_other _ _ _ hn] at hj
          exact hwf n j hj
      · simp only [heq, Bool.false_eq_true, if_false, Prod.mk.injEq, Exit.ok.injEq] at hun
        rw [← hun.2]; exact hwf

/-! ## C10: decoding is total -/

/-- C10: `xd_retrieve_arg` is a total function without an error exit, so decoding
returns a value for every field.  The loop over the fields followed by
`Fnreverse` gives the list of the decoded fields, of the length of the field
sequence; a field of a type without a case in the `switch` (byte, the 16-bit and
64-bit integers, double, signature, file descriptor) decodes to `nil`; and in a
sequence `pre ++ bad :: post` the fields of `pre` and `post` decode to the values
they have in `pre ++ post`, around the value of `bad`. -/
theorem C10_decoding_never_aborts (P : Platform) (fields pre post : List WireValue)
    (bad : WireValue) :
    Fnreverse (xd_retrieve_arg_loop P fields Qnil) = lisp_list (fields.map (xd_retrieve_arg P)) ∧
    Flength (Fnreverse (xd_retrieve_arg_loop P fields Qnil)) = fields.length ∧
    (∀ v : WireValue,
      v.arg_type ∉ [DBUS_TYPE_BOOLEAN, DBUS_TYPE_INT32, DBUS_TYPE_UINT32, DBUS_TYPE_STRING,
        DBUS_TYPE_OBJECT_PATH, DBUS_TYPE_ARRAY, DBUS_TYPE_VARIANT, DBUS_TYPE_STRUCT,
        DBUS_TYPE_DICT_ENTRY] →
      xd_retrieve_arg P v = Qnil) ∧
    (∀ (n : Nat) (z : Int) (s : String),
      xd_retrieve_arg P (.byte n) = Qnil ∧ xd_retrieve_arg P (.int16 z) = Qnil ∧
      xd_retrieve_arg P (.uint16 n) = Qnil ∧ xd_retrieve_arg P (.int64 z) = Qnil ∧
      xd_retrieve_arg P (.uint64 n) = Qnil ∧ xd_retrieve_arg P (.double n) = Qnil ∧
      xd_retrieve_arg P (.signature s) = Qnil ∧ xd_retrieve_arg P (.unix_fd n) = Qnil) ∧
    Fnreverse (xd_retrieve_arg_loop P (pre ++ bad :: post) Qnil) =
      lisp_list (pre.map (xd_retrieve_arg P) ++ xd_retrieve_arg P bad ::
        post.map (xd_retrieve_arg P)) ∧
    Fnreverse (xd_retrieve_arg_loop P (pre ++ post) Qnil) =
      lisp_list (pre.map (xd_retrieve_arg P) ++ post.map (xd_retrieve_arg P)) := by
  refine ⟨decode_fields_eq P fields, ?_, ?_, ?_, ?_, ?_⟩
  · rw [decode_fields_eq, Flength_lisp_list, List.length_map]
  · intro v hv
    cases v <;> first
      | rfl
      | (exfalso; apply hv; simp [WireValue.arg_type])
  · intro n z s
    exact ⟨rfl, rfl, rfl, rfl, rfl, rfl, rfl, rfl⟩
  · rw [decode_fields_eq]; simp
  · rw [decode_fields_eq]; simp

/-- Witness of C10: a message of three fields whose second field is a double decodes
to three values, `nil` standing for the double. -/
theorem C10_decoding_never_aborts_witness :
    DBUS_TYPE_DOUBLE ∉ [DBUS_TYPE_BOOLEAN, DBUS_TYPE_INT32, DBUS_TYPE_UINT32, DBUS_TYPE_STRING,
        DBUS_TYPE_OBJECT_PATH, DBUS_TYPE_ARRAY, DBUS_TYPE_VARIANT, DBUS_TYPE_STRUCT,
        DBUS_TYPE_DICT_ENTRY] ∧
    xd_retrieve_arg P64 (.double 4614253070214989087) = Qnil ∧
    Fnreverse (xd_retrieve_arg_loop P64
      ([.uint32 7] ++ .double 4614253070214989087 :: [.string "x"]) Qnil) =
      lisp_list ([int 7] ++ Qnil :: [string "x"]) :=
  ⟨by decide,
   (C10_decoding_never_aborts P64 [] [.uint32 7] [.string "x"]
      (.double 4614253070214989087)).2.2.1 (.double 4614253070214989087) (by decide),
   (C10_decoding_never_aborts P64 [] [.uint32 7] [.string "x"]
      (.double 4614253070214989087)).2.2.2.2.1⟩

/-! ## C11: one call of the pump takes at most one message -/

theorem same_io_refl (s : State) : s.same_io s := ⟨rfl, fun _ => rfl⟩

theorem same_io_trans (s s1 s2 : State) (h1 : s.same_io s1) (h2 : s1.same_io s2) :
    s.same_io s2 :=
  ⟨h2.1.trans h1.1, fun d => (h2.2 d).trans (h1.2 d)⟩

/-- A step and the code after it, both of which keep the event queue and the
connections, keep them together. -/
theorem bind_same_io {α β : Type} (m : XD α) (f : α → XD β) (s : State)
    (hm : s.same_io (m s).2) (hf : ∀ (a : α) (s1 : State), s1.same_io (f a s1).2) :
    s.same_io ((m >>= f) s).2 := by
  simp only [XD_bind_apply]
  rcases hms : m s with ⟨r, s1⟩
  rw [hms] at hm
  cases r with
  | ok a => exact same_io_trans _ _ _ hm (hf a s1)
  | signal e d => exact hm
  | undefined => exact hm

theorem Fintern_same_io (x : Lisp_Object) (s : State) : s.same_io (Fintern x s).2 := by
  obtain ⟨k, s1, h, hk, hc⟩ := Fintern_is_ok x s
  rw [h]
  exact ⟨hk, hc⟩

theorem strcpy_1024_same_io (src : Option String) (s : State) :
    s.same_io (strcpy_1024 src s).2 := by
  rw [strcpy_1024_state]
  exact same_io_refl s

theorem XD_SYMBOL_INTERN_SYMBOL_same_io (bus i m : Lisp_Object) (s : State) :
    s.same_io (XD_SYMBOL_INTERN_SYMBOL bus i m s).2 := by
  unfold XD_SYMBOL_INTERN_SYMBOL
  cases SYMBOL_NAME s bus with
  | none => exact same_io_refl s
  | some name =>
    exact bind_same_io _ _ s (strcpy_1024_same_io _ s) (fun a s1 => Fintern_same_io _ s1)

/-- The pump code of lines 636 to 644 leaves the event queue and both connections as
they are, whatever its exit. -/
theorem xd_read_message_symbol_same_io (bus : Lisp_Object) (dmessage : DBusMessage)
    (s : State) : s.same_io (xd_read_message_symbol bus dmessage s).2 := by
  unfold xd_read_message_symbol
  refine bind_same_io _ _ s (strcpy_1024_same_io _ s) (fun a s1 => ?_)
  refine bind_same_io _ _ s1 (strcpy_1024_same_io _ s1) (fun b s2 => ?_)
  exact XD_SYMBOL_INTERN_SYMBOL_same_io _ _ _ s2

/-- A property of the end state of `m >>= f` follows from the property at every exit
of `m` that is not normal and at the end state of `f` after every normal exit. -/
theorem bind_post {α β : Type} (m : XD α) (f : α → XD β) (s : State) (R : State → Prop)
    (hn : ∀ r s1, m s = (r, s1) → (∀ a, r ≠ .ok a) → R s1)
    (hok : ∀ a s1, m s = (.ok a, s1) → R (f a s1).2) : R ((m >>= f) s).2 := by
  simp only [XD_bind_apply]
  rcases hms : m s with ⟨r, s1⟩
  cases r with
  | ok a => exact hok a s1 hms
  | signal e d => exact hn _ s1 hms (fun a => by simp)
  | undefined => exact hn _ s1 hms (fun a => by simp)

theorem bus_type_unique (bus : Lisp_Object) (c c1 : DBusBusType)
    (h : bus = Qdbus_system_bus ∧ c = DBUS_BUS_SYSTEM ∨
      bus = Qdbus_session_bus ∧ c = DBUS_BUS_SESSION)
    (h1 : bus = Qdbus_system_bus ∧ c1 = DBUS_BUS_SYSTEM ∨
      bus = Qdbus_session_bus ∧ c1 = DBUS_BUS_SESSION) : c1 = c := by
  have hne : Qdbus_system_bus ≠ Qdbus_session_bus := by decide
  rcases h with ⟨hb, hc⟩ | ⟨hb, hc⟩ <;> rcases h1 with ⟨hb1, hc1⟩ | ⟨hb1, hc1⟩
  · rw [hc, hc1]
  · exact absurd (hb.symm.trans hb1) hne
  · exact absurd (hb1.symm.trans hb) hne
  · rw [hc, hc1]

/-- One call of `xd_read_message`, whatever its exit: from the queue of its bus at most
the first message is taken, the other connection is untouched, and the event queue
gets at most one event at its end. -/
theorem xd_read_message_step (P : Platform) (E : DBusEnv) (bus : Lisp_Object)
    (c : DBusBusType) (st : State)
    (hbus : bus = Qdbus_system_bus ∧ c = DBUS_BUS_SYSTEM ∨
      bus = Qdbus_session_bus ∧ c = DBUS_BUS_SESSION) :
    State.one_step c st (xd_read_message P E bus st).2 := by
  have hR0 : ∀ s1 : State, st.same_io s1 → State.one_step c st s1 :=
    fun s1 h => ⟨Or.inl (by rw [h.2]), fun d _ => h.2 d, Or.inl h.1⟩
  unfold xd_read_message
  refine bind_post _ _ st (State.one_step c st) ?_ ?_
  · intro r s1 h _
    have hs := xd_initialize_state E bus st
    rw [h] at hs
    simp only at hs
    subst hs
    exact hR0 _ (same_io_refl _)
  · intro c1 s1 h
    obtain ⟨hs, -, hb1⟩ := (xd_initialize_eq_ok E bus st s1 c1).mp h
    subst hs
    have hc := bus_type_unique bus c c1 hbus hb1
    subst hc
    refine bind_post _ _ s1 (State.one_step c1 s1) ?_ ?_
    · intro r s2 hpop hne
      unfold dbus_connection_pop_message at hpop
      cases hinc : (s1.connection c1).incoming with
      | nil =>
        simp only [hinc, Prod.mk.injEq] at hpop
        exact absurd hpop.1.symm (hne none)
      | cons dmessage rest =>
        simp only [hinc, Prod.mk.injEq] at hpop
        exact absurd hpop.1.symm (hne (some dmessage))
    · intro popped s2 hpop
      unfold dbus_connection_pop_message at hpop
      cases hinc : (s1.connection c1).incoming with
      | nil =>
        simp only [hinc, Prod.mk.injEq, Exit.ok.injEq] at hpop
        obtain ⟨hp, hs2⟩ := hpop
        subst hp hs2
        exact hR0 _ (same_io_refl _)
      | cons dmessage rest =>
        simp only [hinc, Prod.mk.injEq, Exit.ok.injEq] at hpop
        obtain ⟨hp, hs2⟩ := hpop
        subst hp
        have hR1 : ∀ s3 : State, s2.same_io s3 → State.one_step c1 s1 s3 := by
          intro s3 h3
          refine ⟨Or.inr ⟨dmessage, ?_⟩, ?_, Or.inl ?_⟩
          · rw [h3.2, ← hs2, set_connection_same, hinc]
          · intro d hd
            rw [h3.2, ← hs2, set_connection_other _ _ _ _ hd]
          · rw [h3.1, ← hs2, set_connection_kbd_buffer]
        dsimp only
        split
        · exact hR1 _ (same_io_refl _)
        · refine bind_post _ _ s2 (State.one_step c1 s1) ?_ ?_
          · intro r s3 h3 _
            have := strcpy_1024_same_io dmessage.path s2
            rw [h3] at this
            exact hR1 _ this
          · intro p1 s3 h3
            have hs3 := strcpy_1024_same_io dmessage.path s2
            rw [h3] at hs3
            refine bind_post _ _ s3 (State.one_step c1 s1) ?_ ?_
            · intro r s4 h4 _
              have := strcpy_1024_same_io dmessage.sender s3
              rw [h4] at this
              exact hR1 _ (same_io_trans _ _ _ hs3 this)
            · intro p2 s4 h4
              have hs4 := strcpy_1024_same_io dmessage.sender s3
              rw [h4] at hs4
              refine bind_post _ _ s4 (State.one_step c1 s1) ?_ ?_
              · intro r s5 h5 _
                have := xd_read_message_symbol_same_io bus dmessage s4
                rw [h5] at this
                exact hR1 _ (same_io_trans _ _ _ (same_io_trans _ _ _ hs3 hs4) this)
              · intro sym s5 h5
                have hs5 := xd_read_message_symbol_same_io bus dmessage s4
                rw [h5] at hs5
                have h25 := same_io_trans _ _ _ (same_io_trans _ _ _ hs3 hs4) hs5
                obtain ⟨ha, hb, -⟩ := hR1 s5 h25
                have hconn : ∀ (k : List input_event) (d : DBusBusType),
                    ({ s5 with kbd_buffer := k } : State).connection d = s5.connection d :=
                  fun k d => by cases d <;> rfl
                have hk : s5.kbd_buffer = s1.kbd_buffer := by
                  rw [h25.1, ← hs2, set_connection_kbd_buffer]
                simp only [kbd_buffer_store_event, State.one_step, hconn, hk]
                exact ⟨ha, hb, Or.inr ⟨_, rfl⟩⟩

/-- With an empty queue the call leaves the state as it is, and it returns normally
when the connection to the bus is obtained. -/
theorem xd_read_message_empty (P : Platform) (E : DBusEnv) (bus : Lisp_Object)
    (c : DBusBusType) (st : State)
    (hbus : bus = Qdbus_system_bus ∧ c = DBUS_BUS_SYSTEM ∨
      bus = Qdbus_session_bus ∧ c = DBUS_BUS_SESSION)
    (hempty : (st.connection c).incoming = []) :
    (xd_read_message P E bus st).2 = st ∧
    (E.dbus_bus_get c = .connection → xd_read_message P E bus st = (.ok (), st)) := by
  have hok : E.dbus_bus_get c = .connection → xd_read_message P E bus st = (.ok (), st) := by
    intro hconn
    have h0 := (xd_initialize_eq_ok E bus st st c).mpr ⟨rfl, hconn, hbus⟩
    simp only [xd_read_message, XD_bind_apply, h0, dbus_connection_pop_message, hempty]
    rfl
  refine ⟨?_, hok⟩
  rcases h0 : xd_initialize E bus st with ⟨r0, s0⟩
  have hs := xd_initialize_state E bus st
  rw [h0] at hs
  simp only at hs
  subst hs
  cases r0 with
  | ok c1 =>
    obtain ⟨-, hconn, hb1⟩ := (xd_initialize_eq_ok E bus s0 s0 c1).mp h0
    have hc := bus_type_unique bus c c1 hbus hb1
    subst hc
    rw [hok hconn]
  | signal e d => simp only [xd_read_message, XD_bind_apply, h0]
  | undefined => simp only [xd_read_message, XD_bind_apply, h0]

/-- Without a connection to the bus the call does not return normally, and the state
is left as it is. -/
theorem xd_read_message_no_connection (P : Platform) (E : DBusEnv) (bus : Lisp_Object)
    (c : DBusBusType) (st : State)
    (hbus : bus = Qdbus_system_bus ∧ c = DBUS_BUS_SYSTEM ∨
      bus = Qdbus_session_bus ∧ c = DBUS_BUS_SESSION)
    (hconn : E.dbus_bus_get c ≠ .connection) :
    (xd_read_message P E bus st).2 = st ∧ ∀ a, (xd_read_message P E bus st).1 ≠ .ok a := by
  rcases h0 : xd_initialize E bus st with ⟨r0, s0⟩
  have hs := xd_initialize_state E bus st
  rw [h0] at hs
  simp only at hs
  subst hs
  cases r0 with
  | ok c1 =>
    obtain ⟨-, hconn1, hb1⟩ := (xd_initialize_eq_ok E bus s0 s0 c1).mp h0
    have hc := bus_type_unique bus c c1 hbus hb1
    subst hc
    exact absurd hconn1 hconn
  | signal e d => simp [xd_read_message, XD_bind_apply, h0]
  | undefined => simp [xd_read_message, XD_bind_apply, h0]

/-- The two calls of `xd_read_queued_messages`: the session bus is read after a normal
return of the call for the system bus. -/
theorem xd_read_queued_messages_eq (P : Platform) (E : DBusEnv) (st : State) :
    xd_read_queued_messages P E st =
      match xd_read_message P E Qdbus_system_bus st with
      | (.ok _, st1) => xd_read_message P E Qdbus_session_bus st1
      | (.signal e d, st1) => (.signal e d, st1)
      | (.undefined, st1) => (.undefined, st1) := by
  simp only [xd_read_queued_messages, XD_bind_apply]
  rcases xd_read_message P E Qdbus_system_bus st with ⟨r, s1⟩
  cases r <;> rfl

/-- C11 (evaluation of the code where the claim fails): on a machine without a system
bus (`dbus_bus_get (DBUS_BUS_SYSTEM, &derror)` sets the error) and with one message
pending on the session bus, the queue of the system bus is empty and
`xd_read_message (Qdbus_system_bus)` signals `dbus-error`; the signal leaves
`xd_read_queued_messages`, so the session bus is not read: its message stays queued
and no event is stored. With both buses reachable the same call takes the message
and stores one event. -/
theorem C11_unreachable_bus_raises :
    ((example_pending example_message).connection DBUS_BUS_SYSTEM).incoming = [] ∧
    xd_read_message P64 example_env_no_system_bus Qdbus_system_bus
        (example_pending example_message) =
      (.signal Qdbus_error (lisp_list [string "Failed to connect to socket"]),
       example_pending example_message) ∧
    xd_read_queued_messages P64 example_env_no_system_bus (example_pending example_message) =
      (.signal Qdbus_error (lisp_list [string "Failed to connect to socket"]),
       example_pending example_message) ∧
    ((xd_read_queued_messages P64 example_env_no_system_bus
        (example_pending example_message)).2.connection DBUS_BUS_SESSION).incoming =
      [example_message] ∧
    (xd_read_queued_messages P64 example_env_no_system_bus
        (example_pending example_message)).2.kbd_buffer = [] ∧
    ((xd_read_queued_messages P64 example_env
        (example_pending example_message)).2.connection DBUS_BUS_SESSION).incoming = [] ∧
    (xd_read_queued_messages P64 example_env
        (example_pending example_message)).2.kbd_buffer.length = 1 := by
  refine ⟨?_, ?_, ?_, ?_, ?_, ?_, ?_⟩ <;> rfl

/-- C11 (amended): for every state and environment, one call of `xd_read_message` for
the system or the session bus, whatever its exit, takes at most the first message
off the incoming queue of that bus, leaves the connection of the other bus as it is,
and puts at most one event at the end of the event queue. When the queue of that bus
is empty the state after the call is the state before it (nothing taken, no event,
the obarray of the registered signals unchanged), and the call returns normally if
the connection to the bus is obtained; if the connection is not obtained the call
does not return normally (the error is signalled in xd_initialize) and leaves the
state as it is. `xd_read_queued_messages` calls `xd_read_message` for the system
bus and, only after a normal return of that call, for the session bus. -/
theorem C11_nonblocking_drain (P : Platform) (E : DBusEnv) (bus : Lisp_Object)
    (c : DBusBusType) (st : State)
    (hbus : bus = Qdbus_system_bus ∧ c = DBUS_BUS_SYSTEM ∨
      bus = Qdbus_session_bus ∧ c = DBUS_BUS_SESSION) :
    (((xd_read_message P E bus st).2.connection c).incoming = (st.connection c).incoming ∨
      ∃ dmessage, (st.connection c).incoming =
        dmessage :: ((xd_read_message P E bus st).2.connection c).incoming) ∧
    (∀ d, d ≠ c → (xd_read_message P E bus st).2.connection d = st.connection d) ∧
    ((xd_read_message P E bus st).2.kbd_buffer = st.kbd_buffer ∨
      ∃ event, (xd_read_message P E bus st).2.kbd_buffer = st.kbd_buffer ++ [event]) ∧
    ((st.connection c).incoming = [] →
      (xd_read_message P E bus st).2 = st ∧
      (E.dbus_bus_get c = .connection → xd_read_message P E bus st = (.ok (), st))) ∧
    (E.dbus_bus_get c ≠ .connection →
      (xd_read_message P E bus st).2 = st ∧
      ∀ a, (xd_read_message P E bus st).1 ≠ .ok a) ∧
    xd_read_queued_messages P E st =
      (match xd_read_message P E Qdbus_system_bus st with
      | (.ok _, st1) => xd_read_message P E Qdbus_session_bus st1
      | (.signal e d, st1) => (.signal e d, st1)
      | (.undefined, st1) => (.undefined, st1)) := by
  obtain ⟨h1, h2, h3⟩ := xd_read_message_step P E bus c st hbus
  exact ⟨h1, h2, h3, xd_read_message_empty P E bus c st hbus,
    xd_read_message_no_connection P E bus c st hbus, xd_read_queued_messages_eq P E st⟩

/-- Witness of C11: the session bus of `example_pending example_message`, with one
message pending, read in the environment `example_env`. -/
theorem C11_nonblocking_drain_witness :
    (Qdbus_session_bus = Qdbus_system_bus ∧ DBUS_BUS_SESSION = DBUS_BUS_SYSTEM ∨
      Qdbus_session_bus = Qdbus_session_bus ∧ DBUS_BUS_SESSION = DBUS_BUS_SESSION) ∧
    (∀ d, d ≠ DBUS_BUS_SESSION →
      (xd_read_message P64 example_env Qdbus_session_bus
        (example_pending example_message)).2.connection d =
      (example_pending example_message).connection d) :=
  ⟨Or.inr ⟨rfl, rfl⟩,
   (C11_nonblocking_drain P64 example_env Qdbus_session_bus DBUS_BUS_SESSION
      (example_pending example_message) (Or.inr ⟨rfl, rfl⟩)).2.1⟩

/-! ## C12: the text of an error raised through `XD_ERROR` -/

theorem c_string_dropLast (s : String) :
    c_string ⟨(c_string s).data.dropLast⟩ = ⟨(c_string s).data.dropLast⟩ := by
  apply String.ext
  rw [c_string_data]
  apply takeWhile_of_all
  intro x hx
  exact takeWhile_all _ _ x (List.mem_of_mem_dropLast hx)

/-- The error raised through `XD_ERROR` for a message that fits the buffer: the data
is the one-element list of the message, without its last byte when the message
contains a newline at any place. -/
theorem XD_ERROR_text {α : Type} (message : String) (st : State)
    (hlen : (c_string message).length < 1024) :
    (XD_ERROR message : XD α) st =
      (.signal Qdbus_error
        (lisp_list [string (if newline ∈ (c_string message).data
          then ⟨(c_string message).data.dropLast⟩ else c_string message)]), st) := by
  by_cases hn : newline ∈ (c_string message).data
  · simp [XD_ERROR, strcpy_1024, hlen, xsignal1, build_string, hn, c_string_dropLast,
      XD_bind_apply, XD_pure_apply]
  · simp [XD_ERROR, strcpy_1024, hlen, xsignal1, build_string, hn, c_string_idem,
      XD_bind_apply, XD_pure_apply]

/-- A message that ends with a newline and holds no NUL: the text is the message
without the newline at its end. -/
theorem XD_ERROR_trailing_newline {α : Type} (body : String) (st : State)
    (hnul : Char.ofNat 0 ∉ body.data) (hlen : body.length + 1 < 1024) :
    (XD_ERROR (body ++ "\n") : XD α) st =
      (.signal Qdbus_error (lisp_list [string body]), st) := by
  have hnul1 : Char.ofNat 0 ∉ (body ++ "\n").data := by
    simp only [String.data_append, List.mem_append, not_or]
    exact ⟨hnul, by decide⟩
  have hc : c_string (body ++ "\n") = body ++ "\n" := c_string_of_no_nul _ hnul1
  have hl : (c_string (body ++ "\n")).length < 1024 := by
    rw [hc, String.length_append]
    exact hlen
  rw [XD_ERROR_text _ _ hl, hc]
  have hmem : newline ∈ (body ++ "\n").data := by
    simp only [String.data_append, List.mem_append]
    exact Or.inr (by decide)
  rw [if_pos hmem]
  have hd : (body ++ "\n").data.dropLast = body.data := by
    simp only [String.data_append]
    exact List.dropLast_concat
  rw [hd]

/-- A message without newline and without NUL: the text is the message. -/
theorem XD_ERROR_no_newline {α : Type} (message : String) (st : State)
    (hnul : Char.ofNat 0 ∉ message.data) (hn : newline ∉ message.data)
    (hlen : message.length < 1024) :
    (XD_ERROR message : XD α) st =
      (.signal Qdbus_error (lisp_list [string message]), st) := by
  have hc : c_string message = message := c_string_of_no_nul _ hnul
  have hl : (c_string message).length < 1024 := by rw [hc]; exact hlen
  rw [XD_ERROR_text _ _ hl, hc, if_neg hn]

/-- C12 (evaluation of the code where the claim fails): the message "a\nb" contains a
newline but does not end with one; `strchr (s, newline)` finds the newline, so
`s[strlen (s) - 1]` is overwritten with NUL and the error carries "a\n": the last
byte `b` is dropped and the newline stays. The messages "ab\n" and "ab" both give
"ab". -/
theorem C12_inner_newline_drops_last_byte (st : State) :
    (XD_ERROR "a\nb" : XD Unit) st =
      (.signal Qdbus_error (lisp_list [string "a\n"]), st) ∧
    (XD_ERROR "ab\n" : XD Unit) st = (.signal Qdbus_error (lisp_list [string "ab"]), st) ∧
    (XD_ERROR "ab" : XD Unit) st = (.signal Qdbus_error (lisp_list [string "ab"]), st) := by
  refine ⟨?_, ?_, ?_⟩ <;> rfl

/-! ## C13: when the key identifies its bus, interface and member -/

/-- Two lists cut at the first occurrence of a separator agree part by part. -/
theorem split_at_first {α : Type} (d : α) (xs ys xs1 ys1 : List α)
    (h : xs ++ d :: ys = xs1 ++ d :: ys1) (hx : d ∉ xs) (hx1 : d ∉ xs1) :
    xs = xs1 ∧ ys = ys1 := by
  induction xs generalizing xs1 with
  | nil =>
    cases xs1 with
    | nil => simpa using h
    | cons b xs1 =>
      simp only [List.nil_append, List.cons_append, List.cons.injEq] at h
      exact absurd (by simp [h.1]) hx1
  | cons a xs ih =>
    cases xs1 with
    | nil =>
      simp only [List.nil_append, List.cons_append, List.cons.injEq] at h
      exact absurd (by simp [h.1]) hx
    | cons b xs1 =>
      simp only [List.cons_append, List.cons.injEq] at h
      obtain ⟨hab, ht⟩ := h
      obtain ⟨h1, h2⟩ := ih xs1 ht (fun hm => hx (List.mem_cons_of_mem _ hm))
        (fun hm => hx1 (List.mem_cons_of_mem _ hm))
      exact ⟨by rw [hab, h1], h2⟩

/-- Two lists cut at the last occurrence of a separator agree part by part. -/
theorem split_at_last {α : Type} (d : α) (xs ys xs1 ys1 : List α)
    (h : xs ++ d :: ys = xs1 ++ d :: ys1) (hy : d ∉ ys) (hy1 : d ∉ ys1) :
    xs = xs1 ∧ ys = ys1 := by
  have hr : ys.reverse ++ d :: xs.reverse = ys1.reverse ++ d :: xs1.reverse := by
    have := congrArg List.reverse h
    simpa using this
  obtain ⟨h1, h2⟩ := split_at_first d _ _ _ _ hr (by simpa using hy) (by simpa using hy1)
  exact ⟨List.reverse_injective h2, List.reverse_injective h1⟩

/-- The text of the key determines its three parts when the name of the bus and the
member hold no dot and no part holds a NUL. -/
theorem dispatch_key_text_injective (n1 i1 m1 n2 i2 m2 : String)
    (hn1 : Char.ofNat 0 ∉ n1.data) (hn2 : Char.ofNat 0 ∉ n2.data)
    (hi1 : Char.ofNat 0 ∉ i1.data) (hi2 : Char.ofNat 0 ∉ i2.data)
    (hm1 : Char.ofNat 0 ∉ m1.data) (hm2 : Char.ofNat 0 ∉ m2.data)
    (hd1 : Char.ofNat 46 ∉ n1.data) (hd2 : Char.ofNat 46 ∉ n2.data)
    (he1 : Char.ofNat 46 ∉ m1.data) (he2 : Char.ofNat 46 ∉ m2.data)
    (h : dispatch_key_text n1 i1 m1 = dispatch_key_text n2 i2 m2) :
    n1 = n2 ∧ i1 = i2 ∧ m1 = m2 := by
  simp only [dispatch_key_text, c_string_of_no_nul _ hn1, c_string_of_no_nul _ hn2,
    c_string_of_no_nul _ hi1, c_string_of_no_nul _ hi2, c_string_of_no_nul _ hm1,
    c_string_of_no_nul _ hm2] at h
  have hdata := congrArg String.data h
  have hdot : (".": String).data = [Char.ofNat 46] := rfl
  simp only [String.data_append, hdot, List.append_assoc, List.singleton_append] at hdata
  obtain ⟨hn, hrest⟩ := split_at_first _ _ _ _ _ hdata hd1 hd2
  obtain ⟨hi, hm⟩ := split_at_last _ _ _ _ _ hrest he1 he2
  exact ⟨String.ext hn, String.ext hi, String.ext hm⟩

/-- The name of a bus symbol in a state that names the two bus symbols as
`syms_of_dbusbind` does. -/
theorem bus_name_cases (st : State) (bus : Lisp_Object) (name : String)
    (hsys : SYMBOL_NAME st Qdbus_system_bus = some ":system")
    (hses : SYMBOL_NAME st Qdbus_session_bus = some ":session")
    (hb : bus = Qdbus_system_bus ∨ bus = Qdbus_session_bus)
    (hname : SYMBOL_NAME st bus = some name) :
    bus = Qdbus_system_bus ∧ name = ":system" ∨ bus = Qdbus_session_bus ∧ name = ":session" := by
  rcases hb with hb | hb
  · subst hb
    rw [hsys] at hname
    exact Or.inl ⟨rfl, (Option.some.inj hname).symm⟩
  · subst hb
    rw [hses] at hname
    exact Or.inr ⟨rfl, (Option.some.inj hname).symm⟩

/-- Two Lisp strings with the same bytes are the same Lisp value. -/
theorem string_of_SDATA (x y : Lisp_Object) (hx : STRINGP x = true) (hy : STRINGP y = true)
    (h : SDATA x = SDATA y) : x = y := by
  cases x <;> cases y <;> simp_all [STRINGP, SDATA]

/-- The key texts of two triples made of a bus symbol, whose name is ":system" or
":session", and of Lisp strings without NUL whose member holds no dot are equal
only for equal triples. -/
theorem key_text_identifies (bus1 interface1 signal1 bus2 interface2 signal2 : Lisp_Object)
    (name1 name2 : String)
    (hc1 : bus1 = Qdbus_system_bus ∧ name1 = ":system" ∨
      bus1 = Qdbus_session_bus ∧ name1 = ":session")
    (hc2 : bus2 = Qdbus_system_bus ∧ name2 = ":system" ∨
      bus2 = Qdbus_session_bus ∧ name2 = ":session")
    (hi1 : STRINGP interface1 = true) (hs1 : STRINGP signal1 = true)
    (hi2 : STRINGP interface2 = true) (hs2 : STRINGP signal2 = true)
    (hni1 : Char.ofNat 0 ∉ (SDATA interface1).data) (hns1 : Char.ofNat 0 ∉ (SDATA signal1).data)
    (hni2 : Char.ofNat 0 ∉ (SDATA interface2).data) (hns2 : Char.ofNat 0 ∉ (SDATA signal2).data)
    (hd1 : Char.ofNat 46 ∉ (SDATA signal1).data) (hd2 : Char.ofNat 46 ∉ (SDATA signal2).data)
    (h : dispatch_key_text name1 (SDATA interface1) (SDATA signal1) =
      dispatch_key_text name2 (SDATA interface2) (SDATA signal2)) :
    bus1 = bus2 ∧ interface1 = interface2 ∧ signal1 = signal2 := by
  have hname : ∀ (b : Lisp_Object) (n : String),
      (b = Qdbus_system_bus ∧ n = ":system" ∨ b = Qdbus_session_bus ∧ n = ":session") →
      Char.ofNat 0 ∉ n.data ∧ Char.ofNat 46 ∉ n.data := by
    rintro b n (⟨-, rfl⟩ | ⟨-, rfl⟩) <;> exact ⟨by decide, by decide⟩
  obtain ⟨hn, hi, hm⟩ := dispatch_key_text_injective _ _ _ _ _ _ (hname _ _ hc1).1
    (hname _ _ hc2).1 hni1 hni2 hns1 hns2 (hname _ _ hc1).2 (hname _ _ hc2).2 hd1 hd2 h
  refine ⟨?_, string_of_SDATA _ _ hi1 hi2 hi, string_of_SDATA _ _ hs1 hs2 hm⟩
  rcases hc1 with ⟨hb1, hn1⟩ | ⟨hb1, hn1⟩ <;> rcases hc2 with ⟨hb2, hn2⟩ | ⟨hb2, hn2⟩
  · rw [hb1, hb2]
  · rw [hn1, hn2] at hn; exact absurd hn (by decide)
  · rw [hn1, hn2] at hn; exact absurd hn (by decide)
  · rw [hb1, hb2]

/-- The macro `XD_SYMBOL_INTERN_SYMBOL` interns the text of the key when it fits the
buffer. -/
theorem XD_SYMBOL_INTERN_SYMBOL_eq (bus interface member : Lisp_Object) (st : State)
    (name : String) (hname : SYMBOL_NAME st bus = some name)
    (hlen : (dispatch_key_text name (SDATA interface) (SDATA member)).length < 1024) :
    XD_SYMBOL_INTERN_SYMBOL bus interface member st =
      Fintern (string (dispatch_key_text name (SDATA interface) (SDATA member))) st := by
  have hk : strcpy_1024 (some (dispatch_key_text name (SDATA interface) (SDATA member))) st
      = (.ok (dispatch_key_text name (SDATA interface) (SDATA member)), st) :=
    (strcpy_1024_eq_ok _ _ _ _).mpr
      ⟨_, rfl, by rw [c_string_dispatch_key_text]; exact hlen,
        (c_string_dispatch_key_text _ _ _).symm, rfl⟩
  simp only [XD_SYMBOL_INTERN_SYMBOL, hname, XD_bind_apply, hk]
  rw [build_string, c_string_dispatch_key_text]

/-- A normal return of `Fdbus_register_signal` tells that the signal and the interface
passed `CHECK_STRING`. -/
theorem register_strings (E : DBusEnv)
    (bus signal service path interface handler K : Lisp_Object) (st st1 : State)
    (h : Fdbus_register_signal E bus signal service path interface handler st = (.ok K, st1)) :
    STRINGP signal = true ∧ STRINGP interface = true := by
  unfold Fdbus_register_signal at h
  simp only [bind_eq_ok, CHECK_SYMBOL_eq_ok, CHECK_STRING_eq_ok] at h
  obtain ⟨_, _, ⟨_, _⟩, _, _, ⟨hs, _⟩, _, _, ⟨_, _⟩, _, _, ⟨_, _⟩, _, _, ⟨hi, _⟩, _⟩ := h
  exact ⟨hs, hi⟩

/-- A normal return of `Fdbus_register_signal` changes the function cell of no symbol
but the key. -/
theorem register_frame (E : DBusEnv)
    (bus signal service path interface handler K : Lisp_Object) (st st1 : State)
    (h : Fdbus_register_signal E bus signal service path interface handler st = (.ok K, st1))
    (x : Lisp_Object) (hx : x ≠ K) :
    symbol_function_cell st1 x = symbol_function_cell st x := by
  obtain ⟨c, name, f, k, -, -, -, -, -, -, hK, -, -, -, -, -, hc⟩ :=
    register_cases E bus signal service path interface handler K st st1 h
  cases x with
  | symbol id =>
    have hid : k ≠ id := fun hh => hx (by rw [hK, hh])
    rcases hc with ⟨-, hsym, -⟩ | ⟨-, hk, hsym, -⟩
    · simp [symbol_function_cell, hsym, List.getElem?_modify_ne _ _ hid]
    · simp only [symbol_function_cell, hsym]
      by_cases hlt : id < st.symbols.length
      · rw [List.getElem?_append_left hlt]
      · have hgt : st.symbols.length < id := by omega
        rw [List.getElem?_eq_none (by simp; omega), List.getElem?_eq_none (by omega)]
  | _ => rfl

/-- Two successive registrations, in a state whose obarray agrees with the symbol heap
and which names the bus symbols ":system" and ":session", of strings without NUL
whose members hold no dot: the same key comes back only for the same bus,
interface and signal, and a different key leaves the function cell of the first
key as the first registration set it. -/
theorem register_other_triple (E : DBusEnv)
    (bus1 signal1 service1 path1 interface1 handler1 K1 : Lisp_Object)
    (bus2 signal2 service2 path2 interface2 handler2 K2 : Lisp_Object)
    (st st1 st2 : State) (hwf : st.wf)
    (hsys : SYMBOL_NAME st Qdbus_system_bus = some ":system")
    (hses : SYMBOL_NAME st Qdbus_session_bus = some ":session")
    (h1 : Fdbus_register_signal E bus1 signal1 service1 path1 interface1 handler1 st
      = (.ok K1, st1))
    (h2 : Fdbus_register_signal E bus2 signal2 service2 path2 interface2 handler2 st1
      = (.ok K2, st2))
    (hni1 : Char.ofNat 0 ∉ (SDATA interface1).data) (hns1 : Char.ofNat 0 ∉ (SDATA signal1).data)
    (hni2 : Char.ofNat 0 ∉ (SDATA interface2).data) (hns2 : Char.ofNat 0 ∉ (SDATA signal2).data)
    (hd1 : Char.ofNat 46 ∉ (SDATA signal1).data) (hd2 : Char.ofNat 46 ∉ (SDATA signal2).data) :
    (K1 = K2 → bus1 = bus2 ∧ interface1 = interface2 ∧ signal1 = signal2) ∧
    (K1 ≠ K2 → symbol_function_cell st2 K1 = symbol_function_cell st1 K1) ∧
    ((bus1, interface1, signal1) ≠ (bus2, interface2, signal2) →
      ∃ f1, symbol_function_cell st handler1 = some f1 ∧
        symbol_function_cell st2 K1 = some f1) := by
  obtain ⟨n1, k1, hn1, -, -, -, -, hnameK1⟩ :=
    register_interns E bus1 signal1 service1 path1 interface1 handler1 K1 st st1 h1
  obtain ⟨n2, k2, hn2, -, -, -, -, hnameK2⟩ :=
    register_interns E bus2 signal2 service2 path2 interface2 handler2 K2 st1 st2 h2
  have hkeep1 := register_keeps_names E bus1 signal1 service1 path1 interface1 handler1 K1
    st st1 h1
  have hkeep2 := register_keeps_names E bus2 signal2 service2 path2 interface2 handler2 K2
    st1 st2 h2
  have hwf1 := register_keeps_wf E bus1 signal1 service1 path1 interface1 handler1 K1
    st st1 h1 hwf
  obtain ⟨c1, -, -, -, hb1, -⟩ :=
    register_cases E bus1 signal1 service1 path1 interface1 handler1 K1 st st1 h1
  obtain ⟨c2, -, -, -, hb2, -⟩ :=
    register_cases E bus2 signal2 service2 path2 interface2 handler2 K2 st1 st2 h2
  have hbb1 : bus1 = Qdbus_system_bus ∨ bus1 = Qdbus_session_bus :=
    hb1.elim (fun x => Or.inl x.1) (fun x => Or.inr x.1)
  have hbb2 : bus2 = Qdbus_system_bus ∨ bus2 = Qdbus_session_bus :=
    hb2.elim (fun x => Or.inl x.1) (fun x => Or.inr x.1)
  have hc1 := bus_name_cases st bus1 n1 hsys hses hbb1 hn1
  have hc2 := bus_name_cases st1 bus2 n2 (hkeep1 _ _ hsys) (hkeep1 _ _ hses) hbb2 hn2
  obtain ⟨hs1, hi1⟩ :=
    register_strings E bus1 signal1 service1 path1 interface1 handler1 K1 st st1 h1
  obtain ⟨hs2, hi2⟩ :=
    register_strings E bus2 signal2 service2 path2 interface2 handler2 K2 st1 st2 h2
  have hsame : K1 = K2 → bus1 = bus2 ∧ interface1 = interface2 ∧ signal1 = signal2 := by
    intro hK
    have e1 := hkeep2 _ _ (hnameK1 hwf)
    have e2 := hnameK2 hwf1
    rw [hK, e2] at e1
    exact key_text_identifies bus1 interface1 signal1 bus2 interface2 signal2 n1 n2 hc1 hc2
      hi1 hs1 hi2 hs2 hni1 hns1 hni2 hns2 hd1 hd2 (Option.some.inj e1).symm
  have hframe : K1 ≠ K2 → symbol_function_cell st2 K1 = symbol_function_cell st1 K1 :=
    fun hK => register_frame E bus2 signal2 service2 path2 interface2 handler2 K2 st1 st2 h2
      K1 hK
  refine ⟨hsame, hframe, ?_⟩
  intro hne
  obtain ⟨f1, hf1, hcell⟩ :=
    register_binds E bus1 signal1 service1 path1 interface1 handler1 K1 st st1 h1 hwf
  have hK : K1 ≠ K2 := by
    intro hK
    obtain ⟨e1, e2, e3⟩ := hsame hK
    exact hne (by rw [e1, e2, e3])
  exact ⟨f1, hf1, by rw [hframe hK]; exact hcell⟩

/-- C13 (evaluation of the code where the claim fails): the text of the key is the name
of the bus, the interface and the member joined by dots, each read as a C string.
The interfaces "org.a\0X" and "org.a\0Y" (Lisp strings with a NUL) differ, and
both give the text ":session.org.a.Tick" with the member "Tick"; interface "a.b"
with member "c" and interface "a" with member "b.c" both give ":session.a.b.c".
In both pairs `dbus-register-signal` returns the same symbol (pointer 11) for the
second triple as for the first, and the function cell of that symbol, which held
the function of `my-handler` after the first registration, holds the function of
`stringp` after the second. -/
theorem C13_different_triples_share_key :
    string "org.a\x00X" ≠ string "org.a\x00Y" ∧
    dispatch_key_text ":session" "org.a\x00X" "Tick" = ":session.org.a.Tick" ∧
    dispatch_key_text ":session" "org.a\x00Y" "Tick" = ":session.org.a.Tick" ∧
    Fdbus_register_signal example_env Qdbus_session_bus (string "Tick") (string "org.s")
      (string "/p") (string "org.a\x00X") (symbol 10) example_state
      = (.ok (symbol 11), example_registered_nul) ∧
    symbol_function_cell example_registered_nul (symbol 11) = some (vectorlike 7) ∧
    (Fdbus_register_signal example_env Qdbus_session_bus (string "Tick") (string "org.s")
      (string "/p") (string "org.a\x00Y") Qstringp example_registered_nul).1
      = .ok (symbol 11) ∧
    symbol_function_cell
      (Fdbus_register_signal example_env Qdbus_session_bus (string "Tick") (string "org.s")
        (string "/p") (string "org.a\x00Y") Qstringp example_registered_nul).2 (symbol 11)
      = some (vectorlike 1) ∧
    (string "a.b", string "c") ≠ (string "a", string "b.c") ∧
    dispatch_key_text ":session" "a.b" "c" = ":session.a.b.c" ∧
    dispatch_key_text ":session" "a" "b.c" = ":session.a.b.c" ∧
    Fdbus_register_signal example_env Qdbus_session_bus (string "c") (string "org.s")
      (string "/p") (string "a.b") (symbol 10) example_state
      = (.ok (symbol 11), example_registered_dotted) ∧
    symbol_function_cell example_registered_dotted (symbol 11) = some (vectorlike 7) ∧
    (Fdbus_register_signal example_env Qdbus_session_bus (string "b.c") (string "org.s")
      (string "/p") (string "a") Qstringp example_registered_dotted).1
      = .ok (symbol 11) ∧
    symbol_function_cell
      (Fdbus_register_signal example_env Qdbus_session_bus (string "b.c") (string "org.s")
        (string "/p") (string "a") Qstringp example_registered_dotted).2 (symbol 11)
      = some (vectorlike 1) :=
  ⟨by decide, by decide, by decide, rfl, by decide, rfl, by decide,
   by decide, by decide, by decide, rfl, by decide, rfl, by decide⟩

/-- Two successive registrations of the same bus, interface and signal return the
same key. -/
theorem register_same_triple (E : DBusEnv)
    (bus signal interface service1 path1 H1 service2 path2 H2 K1 K2 : Lisp_Object)
    (st st1 st2 : State)
    (h1 : Fdbus_register_signal E bus signal service1 path1 interface H1 st = (.ok K1, st1))
    (h2 : Fdbus_register_signal E bus signal service2 path2 interface H2 st1 = (.ok K2, st2)) :
    K2 = K1 := by
  obtain ⟨name, k, -, hname1, -, hK1, hlook1, -⟩ :=
    register_interns E bus signal service1 path1 interface H1 K1 st st1 h1
  obtain ⟨c2, name2, f2, k2, -, -, hname2, -, -, -, hK2, -, -, -, -, -, hc2⟩ :=
    register_cases E bus signal service2 path2 interface H2 K2 st1 st2 h2
  have hn : name2 = name := by
    rw [hname1] at hname2; exact (Option.some.inj hname2).symm
  subst hn
  rcases hc2 with ⟨hlook2, -, -⟩ | ⟨hlook2, -, -, -⟩
  · have hk : k2 = k := by rw [hlook1] at hlook2; exact (Option.some.inj hlook2).symm
    rw [hK1, hK2, hk]
  · rw [hlook1] at hlook2; exact absurd hlook2 (by simp)

/-- C13 (amended): DispatchKey uniqueness on the domain where it holds. In a state whose
obarray agrees with the symbol heap and which names the bus symbols ":system" and
":session" (as after `syms_of_dbusbind`), let `dbus-register-signal` return the key
`K1` for (bus1, interface1, signal1, handler1) and then the key `K2` for
(bus2, interface2, signal2, handler2), where the interface and signal strings hold
no NUL and the signals (the members) hold no dot. Then
* `K1 = K2` exactly when (bus1, interface1, signal1) = (bus2, interface2, signal2);
* when the triples differ, the keys differ and the second registration leaves the
  function cell of `K1` as the first one set it: it still holds the function of
  handler1, so registering one triple does not overwrite the handler of another;
* the names of `K1` and `K2` are the texts that `XD_SYMBOL_INTERN_SYMBOL` assembles
  (name of the bus, interface, member, joined by dots), these two texts are equal
  exactly when the triples are equal, and the macro interns exactly this text. -/
theorem C13_dispatch_key_uniqueness (E : DBusEnv)
    (bus1 signal1 service1 path1 interface1 handler1 K1 : Lisp_Object)
    (bus2 signal2 service2 path2 interface2 handler2 K2 : Lisp_Object)
    (st st1 st2 : State) (hwf : st.wf)
    (hsys : SYMBOL_NAME st Qdbus_system_bus = some ":system")
    (hses : SYMBOL_NAME st Qdbus_session_bus = some ":session")
    (h1 : Fdbus_register_signal E bus1 signal1 service1 path1 interface1 handler1 st
      = (.ok K1, st1))
    (h2 : Fdbus_register_signal E bus2 signal2 service2 path2 interface2 handler2 st1
      = (.ok K2, st2))
    (hni1 : Char.ofNat 0 ∉ (SDATA interface1).data) (hns1 : Char.ofNat 0 ∉ (SDATA signal1).data)
    (hni2 : Char.ofNat 0 ∉ (SDATA interface2).data) (hns2 : Char.ofNat 0 ∉ (SDATA signal2).data)
    (hd1 : Char.ofNat 46 ∉ (SDATA signal1).data) (hd2 : Char.ofNat 46 ∉ (SDATA signal2).data) :
    (K1 = K2 ↔ bus1 = bus2 ∧ interface1 = interface2 ∧ signal1 = signal2) ∧
    ((bus1, interface1, signal1) ≠ (bus2, interface2, signal2) →
      K1 ≠ K2 ∧
      symbol_function_cell st2 K1 = symbol_function_cell st1 K1 ∧
      ∃ f1, symbol_function_cell st handler1 = some f1 ∧
        symbol_function_cell st1 K1 = some f1 ∧
        symbol_function_cell st2 K1 = some f1) ∧
    (∃ name1 name2,
      SYMBOL_NAME st bus1 = some name1 ∧ SYMBOL_NAME st bus2 = some name2 ∧
      SYMBOL_NAME st2 K1 =
        some (dispatch_key_text name1 (SDATA interface1) (SDATA signal1)) ∧
      SYMBOL_NAME st2 K2 =
        some (dispatch_key_text name2 (SDATA interface2) (SDATA signal2)) ∧
      (dispatch_key_text name1 (SDATA interface1) (SDATA signal1) =
          dispatch_key_text name2 (SDATA interface2) (SDATA signal2) ↔
        bus1 = bus2 ∧ interface1 = interface2 ∧ signal1 = signal2) ∧
      XD_SYMBOL_INTERN_SYMBOL bus1 interface1 signal1 st =
        Fintern (string (dispatch_key_text name1 (SDATA interface1) (SDATA signal1))) st ∧
      XD_SYMBOL_INTERN_SYMBOL bus2 interface2 signal2 st =
        Fintern (string (dispatch_key_text name2 (SDATA interface2) (SDATA signal2))) st) := by
  obtain ⟨hsame, hframe, -⟩ := register_other_triple E bus1 signal1 service1 path1 interface1
    handler1 K1 bus2 signal2 service2 path2 interface2 handler2 K2 st st1 st2 hwf hsys hses
    h1 h2 hni1 hns1 hni2 hns2 hd1 hd2
  obtain ⟨n1, k1, hn1, -, hlen1, -, -, hnameK1⟩ :=
    register_interns E bus1 signal1 service1 path1 interface1 handler1 K1 st st1 h1
  obtain ⟨n2, k2, hn2, -, hlen2, -, -, hnameK2⟩ :=
    register_interns E bus2 signal2 service2 path2 interface2 handler2 K2 st1 st2 h2
  have hkeep1 := register_keeps_names E bus1 signal1 service1 path1 interface1 handler1 K1
    st st1 h1
  have hkeep2 := register_keeps_names E bus2 signal2 service2 path2 interface2 handler2 K2
    st1 st2 h2
  have hwf1 := register_keeps_wf E bus1 signal1 service1 path1 interface1 handler1 K1
    st st1 h1 hwf
  obtain ⟨c1, -, -, -, hb1, -⟩ :=
    register_cases E bus1 signal1 service1 path1 interface1 handler1 K1 st st1 h1
  obtain ⟨c2, -, -, -, hb2, -⟩ :=
    register_cases E bus2 signal2 service2 path2 interface2 handler2 K2 st1 st2 h2
  have hbb1 : bus1 = Qdbus_system_bus ∨ bus1 = Qdbus_session_bus :=
    hb1.elim (fun x => Or.inl x.1) (fun x => Or.inr x.1)
  have hbb2 : bus2 = Qdbus_system_bus ∨ bus2 = Qdbus_session_bus :=
    hb2.elim (fun x => Or.inl x.1) (fun x => Or.inr x.1)
  have hc1 := bus_name_cases st bus1 n1 hsys hses hbb1 hn1
  have hc2 := bus_name_cases st1 bus2 n2 (hkeep1 _ _ hsys) (hkeep1 _ _ hses) hbb2 hn2
  have hn2st : SYMBOL_NAME st bus2 = some n2 := by
    rcases hc2 with ⟨hb, hn⟩ | ⟨hb, hn⟩
    · rw [hb, hn]; exact hsys
    · rw [hb, hn]; exact hses
  obtain ⟨hs1, hi1⟩ :=
    register_strings E bus1 signal1 service1 path1 interface1 handler1 K1 st st1 h1
  obtain ⟨hs2, hi2⟩ :=
    register_strings E bus2 signal2 service2 path2 interface2 handler2 K2 st1 st2 h2
  have hback : bus1 = bus2 ∧ interface1 = interface2 ∧ signal1 = signal2 → K1 = K2 := by
    rintro ⟨hb, hi, hs⟩
    subst hb hi hs
    exact (register_same_triple E bus1 signal1 interface1 service1 path1 handler1 service2
      path2 handler2 K1 K2 st st1 st2 h1 h2).symm
  obtain ⟨f1, hf1, hcell⟩ :=
    register_binds E bus1 signal1 service1 path1 interface1 handler1 K1 st st1 h1 hwf
  refine ⟨⟨hsame, hback⟩, ?_, n1, n2, hn1, hn2st, hkeep2 _ _ (hnameK1 hwf), hnameK2 hwf1,
    ⟨?_, ?_⟩, XD_SYMBOL_INTERN_SYMBOL_eq bus1 interface1 signal1 st n1 hn1 hlen1,
    XD_SYMBOL_INTERN_SYMBOL_eq bus2 interface2 signal2 st n2 hn2st hlen2⟩
  · intro hne
    have hK : K1 ≠ K2 := by
      intro hK
      obtain ⟨e1, e2, e3⟩ := hsame hK
      exact hne (by rw [e1, e2, e3])
    exact ⟨hK, hframe hK, f1, hf1, hcell, by rw [hframe hK]; exact hcell⟩
  · exact key_text_identifies bus1 interface1 signal1 bus2 interface2 signal2 n1 n2 hc1 hc2
      hi1 hs1 hi2 hs2 hni1 hns1 hni2 hns2 hd1 hd2
  · rintro ⟨hb, hi, hs⟩
    subst hb hi hs
    rw [hn1] at hn2st
    rw [Option.some.inj hn2st]

/-- Witness of C13: in `example_state` the signal `Tick` of `org.example.Iface` is
registered on the session bus with `my-handler` and then on the system bus with
`stringp`; the keys are the symbols at the pointers 11 and 12, and the function
cell of the first key still holds the function of `my-handler`. -/
theorem C13_dispatch_key_uniqueness_witness :
    example_state.wf ∧
    Fdbus_register_signal example_env Qdbus_session_bus (string "Tick") (string "org.s")
      (string "/p") (string "org.example.Iface") (symbol 10) example_state
      = (.ok (symbol 11), example_registered) ∧
    Fdbus_register_signal example_env Qdbus_system_bus (string "Tick") (string "org.s")
      (string "/p") (string "org.example.Iface") Qstringp example_registered
      = (.ok (symbol 12), example_registered_system) ∧
    (Qdbus_session_bus, string "org.example.Iface", string "Tick") ≠
      (Qdbus_system_bus, string "org.example.Iface", string "Tick") ∧
    (symbol 11 ≠ symbol 12 ∧
      symbol_function_cell example_registered_system (symbol 11) =
        symbol_function_cell example_registered (symbol 11) ∧
      ∃ f1, symbol_function_cell example_state (symbol 10) = some f1 ∧
        symbol_function_cell example_registered (symbol 11) = some f1 ∧
        symbol_function_cell example_registered_system (symbol 11) = some f1) :=
  ⟨example_state_wf, rfl, rfl, by decide,
   (C13_dispatch_key_uniqueness example_env
      Qdbus_session_bus (string "Tick") (string "org.s") (string "/p")
      (string "org.example.Iface") (symbol 10) (symbol 11)
      Qdbus_system_bus (string "Tick") (string "org.s") (string "/p")
      (string "org.example.Iface") Qstringp (symbol 12)
      example_state example_registered example_registered_system
      example_state_wf (by decide) (by decide) rfl rfl
      (by decide) (by decide) (by decide) (by decide) (by decide) (by decide)).2.1
     (by decide)⟩

end Dbusbind
